import Mathlib

/-!
Verification of the `rem` experiment-orchestration core against its
natural-language specification.

The definitions below are a shallow embedding of the Python sources under
`src/rem/`.  Python strings are modelled by `String` (ASCII fragment, which
covers every value the program manipulates), Python's dynamically typed
values (`Any`) by the inductive type `Py`, dicts by association lists in
insertion order (Python 3.7+ dicts preserve insertion order), raised
exceptions by `Except`/`Option`, and the filesystem of JSON manifests by
explicit record states.  Wall-clock timestamp fields (`timestamp_*`) are
omitted from the manifest records: the source only ever writes fresh
`datetime.now()` strings into them and never branches on them, so they do
not influence any behaviour the claims mention.
-/

set_option maxHeartbeats 1000000

namespace Rem

/-- A dynamically typed Python value as it appears in configs, sweep specs
and manifest payloads (`Any` in the sources).  `pyDict` carries entries in
insertion order; Python dict keys are unique.  Numeric floats appearing in
sweep specs are carried exactly as rationals (the sweep engine never
computes with them, it only moves them around). -/
inductive Py where
  | pyNone : Py
  | pyBool : Bool → Py
  | pyInt : Int → Py
  | pyRat : ℚ → Py
  | pyStr : String → Py
  | pyList : List Py → Py
  | pyDict : List (String × Py) → Py

/-- An attribute/dict: parameter-override maps, artifacts, etc. -/
abbrev PyDict := List (String × Py)

/-! ### `src/rem/core/status.py` -/

/-- `VALID_STATUSES` (status.py).  Membership is all that is ever used of
the Python `set`, so a list models it. -/
def VALID_STATUSES : List String :=
  ["PENDING", "STAGED", "RUNNING", "COMPLETED", "FAILED", "KILLED",
   "TIMEOUT", "CRASHED", "SKIPPED"]

/-- `TERMINAL_STATUSES` (status.py). -/
def TERMINAL_STATUSES : List String :=
  ["COMPLETED", "FAILED", "KILLED", "TIMEOUT", "CRASHED", "SKIPPED"]

/-- `is_terminal` (status.py). -/
def is_terminal (status : String) : Bool :=
  TERMINAL_STATUSES.contains status

/-! ### Manifest records (`src/rem/core/manifest.py`)

The three dataclasses, restricted to the fields the orchestrator reads or
writes.  `stamp`, `experiment_*`, `slurm`, `patches` and the timestamp
fields are config echoes the control flow never inspects. -/

/-- One `{"rep_id": ..., "status": ...}` summary entry as consumed by
`summarize_sweep_status`. -/
structure RepEntry where
  rep_id : String
  status : String
  deriving DecidableEq

/-- `RepManifest` (manifest.py). -/
structure RepManifest where
  rep_id : String
  sweep_id : String
  group_id : String
  version : Nat := 1
  status : String := "PENDING"
  artifacts : PyDict := []
  parameters : PyDict := []

/-- One placeholder entry of `SweepManifest.reps`
(`{"rep_id": ..., "status": "PENDING", "version": 1}`). -/
structure RepMeta where
  rep_id : String
  status : String
  version : Nat

/-- `SweepManifest` (manifest.py). -/
structure SweepManifest where
  sweep_id : String
  parameter_combination : PyDict
  num_reps : Nat
  reps : List RepMeta
  status : String := "PENDING"

/-- `GroupManifest` (manifest.py), restricted to the fields the
orchestrator reads or writes. -/
structure GroupManifest where
  group_id : String
  status : String := "PENDING"

/-- `summarize_sweep_status` (manifest.py lines 148-157). -/
def summarize_sweep_status (rep_entries : List RepEntry) : String :=
  let statuses := rep_entries.map (·.status)
  if statuses.all (· == "COMPLETED") then "COMPLETED"
  else if statuses.all (· == "PENDING") then "PENDING"
  else if statuses.any (fun s => !(TERMINAL_STATUSES.contains s)) then "IN_PROGRESS"
  else "PARTIAL_COMPLETION"

/-- `summarize_group_status` (manifest.py lines 160-169). -/
def summarize_group_status (sweep_manifests : List SweepManifest) : String :=
  let statuses := sweep_manifests.map (·.status)
  if statuses.all (· == "COMPLETED") then "COMPLETED"
  else if statuses.all (· == "PENDING") then "PENDING"
  else if statuses.any (fun s => !(TERMINAL_STATUSES.contains s)) then "IN_PROGRESS"
  else "PARTIAL_COMPLETION"

/-- Modelled from the spec: the aggregation truth table `agg` of spec
section 4.6, written exactly as the specification states it — all
`COMPLETED` yields `COMPLETED`; otherwise all `PENDING` yields `PENDING`;
otherwise any child outside the terminal subset yields `IN_PROGRESS`;
otherwise `PARTIAL_COMPLETION`.  It is the refinement target the two
`summarize_*` functions are compared against. -/
def aggSpec (children : List String) : String :=
  if children.all (· == "COMPLETED") then "COMPLETED"
  else if children.all (· == "PENDING") then "PENDING"
  else if children.any
      (fun s => !(["COMPLETED", "FAILED", "KILLED", "TIMEOUT", "CRASHED", "SKIPPED"].contains s))
    then "IN_PROGRESS"
  else "PARTIAL_COMPLETION"

theorem summarize_sweep_status_eq_aggSpec (es : List RepEntry) :
    summarize_sweep_status es = aggSpec (es.map (·.status)) := rfl

theorem summarize_group_status_eq_aggSpec (ms : List SweepManifest) :
    summarize_group_status ms = aggSpec (ms.map (·.status)) := rfl

/-- C4: the aggregation function applied identically to a sweep's rep
statuses and a group's sweep statuses realises the specified truth table
on every non-empty list of child statuses: all `COMPLETED` → `COMPLETED`;
otherwise all `PENDING` → `PENDING`; otherwise any status outside the
terminal subset → `IN_PROGRESS`; otherwise (mixed terminal, not all
completed) → `PARTIAL_COMPLETION`. -/
theorem c4_agg_truth_table (es : List RepEntry) (ms : List SweepManifest)
    (hes : es ≠ []) (hms : ms ≠ [])
    (hsame : es.map (·.status) = ms.map (·.status)) :
    summarize_sweep_status es = aggSpec (es.map (·.status)) ∧
    summarize_group_status ms = aggSpec (ms.map (·.status)) ∧
    summarize_sweep_status es = summarize_group_status ms ∧
    ((es.map (·.status)).all (· == "COMPLETED") →
      summarize_sweep_status es = "COMPLETED") ∧
    (¬ (es.map (·.status)).all (· == "COMPLETED") →
      (es.map (·.status)).all (· == "PENDING") →
      summarize_sweep_status es = "PENDING") ∧
    (¬ (es.map (·.status)).all (· == "COMPLETED") →
      ¬ (es.map (·.status)).all (· == "PENDING") →
      (es.map (·.status)).any (fun s => !(TERMINAL_STATUSES.contains s)) →
      summarize_sweep_status es = "IN_PROGRESS") ∧
    (¬ (es.map (·.status)).all (· == "COMPLETED") →
      ¬ (es.map (·.status)).all (· == "PENDING") →
      ¬ (es.map (·.status)).any (fun s => !(TERMINAL_STATUSES.contains s)) →
      summarize_sweep_status es = "PARTIAL_COMPLETION") := by
  refine ⟨rfl, rfl, ?_, ?_, ?_, ?_, ?_⟩
  · rw [summarize_sweep_status_eq_aggSpec, summarize_group_status_eq_aggSpec, hsame]
  · intro h
    simp only [summarize_sweep_status, h, if_true]
  · intro h1 h2
    simp only [summarize_sweep_status]
    rw [if_neg (by simpa using h1), if_pos h2]
  · intro h1 h2 h3
    simp only [summarize_sweep_status]
    rw [if_neg (by simpa using h1), if_neg (by simpa using h2), if_pos h3]
  · intro h1 h2 h3
    simp only [summarize_sweep_status]
    rw [if_neg (by simpa using h1), if_neg (by simpa using h2),
      if_neg (by simpa using h3)]

theorem c4_agg_truth_table_witness :
    ([⟨"R_001", "COMPLETED"⟩, ⟨"R_002", "FAILED"⟩] : List RepEntry) ≠ [] ∧
    summarize_sweep_status [⟨"R_001", "COMPLETED"⟩, ⟨"R_002", "FAILED"⟩] =
      "PARTIAL_COMPLETION" := by
  refine ⟨by decide, ?_⟩
  have h := c4_agg_truth_table
    [⟨"R_001", "COMPLETED"⟩, ⟨"R_002", "FAILED"⟩]
    [⟨"S_0001", [], 1, [], "COMPLETED"⟩, ⟨"S_0002", [], 1, [], "FAILED"⟩]
    (by decide) (List.cons_ne_nil _ _) (by decide)
  exact h.2.2.2.2.2.2 (by decide) (by decide) (by decide)

/-! ### Decimal formatting (`f"{i:0{pad}d}"` in `src/rem/core/stamp.py`)

Python renders a non-negative integer in decimal and left-pads it with
zeros to the requested width.  `decRepr` is that decimal rendering,
written with explicit fuel (`n + 1` digits are always enough) so that it
reduces definitionally. -/

/-- The decimal digit characters. -/
def digitChar (d : Nat) : Char :=
  match d with
  | 0 => '0' | 1 => '1' | 2 => '2' | 3 => '3' | 4 => '4'
  | 5 => '5' | 6 => '6' | 7 => '7' | 8 => '8' | 9 => '9'
  | _ => '*'

/-- Numeric value of a decimal digit character. -/
def digitVal (c : Char) : Nat := c.toNat - 48

def decAux : Nat → Nat → List Char → List Char
  | 0, _, acc => acc
  | fuel + 1, n, acc =>
      if n < 10 then digitChar n :: acc
      else decAux fuel (n / 10) (digitChar (n % 10) :: acc)

/-- Decimal rendering of a natural number, most significant digit first. -/
def decRepr (n : Nat) : List Char := decAux (n + 1) n []

/-- Big-endian numeric value of a digit string. -/
def valBE (cs : List Char) : Nat := cs.foldl (fun a c => a * 10 + digitVal c) 0

theorem digitVal_digitChar {d : Nat} (h : d < 10) : digitVal (digitChar d) = d := by
  interval_cases d <;> rfl

theorem isDigit_digitChar {d : Nat} (h : d < 10) : (digitChar d).isDigit = true := by
  interval_cases d <;> rfl

theorem decAux_eq_decRepr (n : Nat) :
    ∀ fuel acc, n < fuel → decAux fuel n acc = decRepr n ++ acc := by
  induction n using Nat.strong_induction_on with
  | _ n ih =>
    intro fuel acc hf
    match fuel, hf with
    | fuel + 1, _ =>
      by_cases h10 : n < 10
      · simp [decAux, decRepr, h10]
      · have hdiv : n / 10 < n := Nat.div_lt_self (by omega) (by omega)
        have h1 : decAux (fuel + 1) n acc
            = decAux fuel (n / 10) (digitChar (n % 10) :: acc) := by
          simp [decAux, h10]
        have h2 : decRepr n = decRepr (n / 10) ++ [digitChar (n % 10)] := by
          have : decRepr n = decAux n (n / 10) (digitChar (n % 10) :: []) := by
            simp [decRepr, decAux, h10]
          rw [this, ih (n / 10) hdiv n [digitChar (n % 10)] (by omega)]
        rw [h1, ih (n / 10) hdiv fuel _ (by omega), h2, List.append_assoc]
        rfl

theorem decRepr_lt_ten {n : Nat} (h : n < 10) : decRepr n = [digitChar n] := by
  simp [decRepr, decAux, h]

theorem decRepr_ge_ten {n : Nat} (h : ¬ n < 10) :
    decRepr n = decRepr (n / 10) ++ [digitChar (n % 10)] := by
  have : decRepr n = decAux n (n / 10) (digitChar (n % 10) :: []) := by
    simp [decRepr, decAux, h]
  rw [this, decAux_eq_decRepr (n / 10) n [digitChar (n % 10)]
    (Nat.div_lt_self (by omega) (by omega))]

theorem valBE_append_digit (cs : List Char) (c : Char) :
    valBE (cs ++ [c]) = valBE cs * 10 + digitVal c := by
  simp [valBE, List.foldl_append]

theorem valBE_decRepr (n : Nat) : valBE (decRepr n) = n := by
  induction n using Nat.strong_induction_on with
  | _ n ih =>
    by_cases h10 : n < 10
    · rw [decRepr_lt_ten h10]
      simp [valBE, digitVal_digitChar h10]
    · have hdiv : n / 10 < n := Nat.div_lt_self (by omega) (by omega)
      rw [decRepr_ge_ten h10, valBE_append_digit, ih (n / 10) hdiv,
        digitVal_digitChar (Nat.mod_lt _ (by omega))]
      omega

theorem decRepr_all_digit (n : Nat) : ∀ c ∈ decRepr n, c.isDigit = true := by
  induction n using Nat.strong_induction_on with
  | _ n ih =>
    by_cases h10 : n < 10
    · rw [decRepr_lt_ten h10]
      intro c hc
      simp at hc
      subst hc
      exact isDigit_digitChar h10
    · have hdiv : n / 10 < n := Nat.div_lt_self (by omega) (by omega)
      rw [decRepr_ge_ten h10]
      intro c hc
      rcases List.mem_append.mp hc with h | h
      · exact ih (n / 10) hdiv c h
      · simp at h
        subst h
        exact isDigit_digitChar (Nat.mod_lt _ (by omega))

theorem decRepr_ne_nil (n : Nat) : decRepr n ≠ [] := by
  by_cases h10 : n < 10
  · rw [decRepr_lt_ten h10]
    simp
  · rw [decRepr_ge_ten h10]
    simp

/-- Zero left-padding to a fixed width: `f"{n:0{width}d}"` for `n ≥ 0`. -/
def padNum (width n : Nat) : List Char :=
  List.replicate (width - (decRepr n).length) '0' ++ decRepr n

theorem valBE_replicate_zero (k : Nat) (ds : List Char) :
    valBE (List.replicate k '0' ++ ds) = valBE ds := by
  induction k with
  | zero => simp
  | succ k ihk =>
    have : List.replicate (k + 1) '0' ++ ds = '0' :: (List.replicate k '0' ++ ds) := by
      simp [List.replicate_succ]
    rw [this]
    simpa [valBE, digitVal] using ihk

theorem valBE_padNum (width n : Nat) : valBE (padNum width n) = n := by
  rw [padNum, valBE_replicate_zero, valBE_decRepr]

theorem padNum_all_digit (width n : Nat) : ∀ c ∈ padNum width n, c.isDigit = true := by
  intro c hc
  rcases List.mem_append.mp hc with h | h
  · have := List.eq_of_mem_replicate h
    subst this
    rfl
  · exact decRepr_all_digit n c h

theorem padNum_ne_nil (width n : Nat) : padNum width n ≠ [] := by
  rw [padNum]
  intro h
  rcases List.append_eq_nil.mp h with ⟨-, h2⟩
  exact decRepr_ne_nil n h2

theorem padNum_inj {width i j : Nat} (h : padNum width i = padNum width j) : i = j := by
  have := congrArg valBE h
  rwa [valBE_padNum, valBE_padNum] at this

/-! ### `src/rem/core/stamp.py`

Python `str` operations are modelled on the underlying character list
(`String.data`).  The modelled character fragment consists of the ASCII
characters together with the Unicode superscript and subscript digits
(U+00B9 U+00B2 U+00B3, U+2070, U+2074–U+2079, U+2080–U+2089); on that
fragment `py_isdigit` and `py_int_of_string` agree exactly with Python's
`str.isdigit` and `int()` — in particular `str.isdigit` accepts the
superscript and subscript digits (Numeric_Type = Digit) while `int()`
rejects them.  Decimal digits of other scripts (accepted by both
`str.isdigit` and `int()`) and non-ASCII whitespace lie outside the
fragment, and every statement below quantifies only over formatted ids
(ASCII) or concrete fragment strings. -/

/-- `str.startswith` (a prefix test). -/
def py_startswith (s p : String) : Bool := p.data.isPrefixOf s.data

/-- The slice `s[n:]`. -/
def py_drop (s : String) (n : Nat) : String := String.mk (s.data.drop n)

/-- A character accepted by Python's `str.isdigit`: Numeric_Type = Digit,
i.e. the decimal digits plus the superscript and subscript digits.  On
the modelled fragment these are the ASCII digits and the listed
superscripts/subscripts; note that `int()` rejects the latter. -/
def py_char_isdigit (c : Char) : Bool :=
  c.isDigit ||
    ['¹', '²', '³', '⁰', '⁴', '⁵', '⁶', '⁷', '⁸', '⁹',
     '₀', '₁', '₂', '₃', '₄', '₅', '₆', '₇', '₈', '₉'].contains c

/-- `str.isdigit`: non-empty and every character of
Numeric_Type = Digit. -/
def py_isdigit (s : String) : Bool := !s.data.isEmpty && s.data.all py_char_isdigit

/-- ASCII whitespace stripped by `int()` before parsing. -/
def py_isspace (c : Char) : Bool :=
  [' ', '\t', '\n', '\r', '\x0b', '\x0c'].contains c

/-- Leading and trailing whitespace removal, as `int()` performs. -/
def py_strip (cs : List Char) : List Char :=
  ((cs.dropWhile py_isspace).reverse.dropWhile py_isspace).reverse

/-- Scanner for the tail of a Python integer literal: digits with single
underscores allowed strictly between digits (an underscore must be
followed by a digit). -/
def digitsValGo : Nat → List Char → Option Nat
  | acc, [] => some acc
  | acc, c :: rest =>
      if c == '_' then
        match rest with
        | [] => none
        | c2 :: rest2 =>
            if c2.isDigit then digitsValGo (acc * 10 + digitVal c2) rest2 else none
      else if c.isDigit then digitsValGo (acc * 10 + digitVal c) rest
      else none

theorem digitsValGo_cons_digit (acc : Nat) {c : Char} (rest : List Char)
    (h1 : (c == '_') = false) (h2 : c.isDigit = true) :
    digitsValGo acc (c :: rest) = digitsValGo (acc * 10 + digitVal c) rest := by
  rw [digitsValGo.eq_def]
  simp only [h1, Bool.false_eq_true, if_false, h2, if_true]

/-- The digit part of a Python integer literal: must begin with a digit. -/
def digitsVal : List Char → Option Nat
  | [] => none
  | c :: rest => if c.isDigit then digitsValGo (digitVal c) rest else none

/-- Python `int(s)` on the modelled fragment: strip whitespace, optional
sign, then a sequence of decimal digits (category Nd — within the
fragment, the ASCII digits) with optional single underscores between
digits.  Superscript and subscript digits are rejected, exactly as
`int()` rejects them.  `none` models a raised `ValueError`. -/
def py_int_of_string (s : String) : Option Int :=
  match py_strip s.data with
  | '+' :: rest => (digitsVal rest).map (fun n => (n : Int))
  | '-' :: rest => (digitsVal rest).map (fun n => -(n : Int))
  | cs => (digitsVal cs).map (fun n => (n : Int))

/-- `format_rep_id` (stamp.py): `f"R_{index:03d}"`, modelled for the
non-negative indices the program and the claims use. -/
def format_rep_id (index : Nat) : String := String.mk ('R' :: '_' :: padNum 3 index)

/-- `format_sweep_id` (stamp.py): `f"S_{index:04d}"`. -/
def format_sweep_id (index : Nat) : String := String.mk ('S' :: '_' :: padNum 4 index)

/-- `parse_rep_id` (stamp.py): prefix check then `int(...)`; `none`
models the raised `ValueError`. -/
def parse_rep_id (rep_id : String) : Option Int :=
  if py_startswith rep_id "R_" then py_int_of_string (py_drop rep_id 2) else none

/-- `parse_sweep_id` (stamp.py). -/
def parse_sweep_id (sweep_id : String) : Option Int :=
  if py_startswith sweep_id "S_" then py_int_of_string (py_drop sweep_id 2) else none

/-- `is_valid_rep_id` (stamp.py). -/
def is_valid_rep_id (rep_id : String) : Bool :=
  py_startswith rep_id "R_" && py_isdigit (py_drop rep_id 2)

/-- `is_valid_sweep_id` (stamp.py). -/
def is_valid_sweep_id (sweep_id : String) : Bool :=
  py_startswith sweep_id "S_" && py_isdigit (py_drop sweep_id 2)

theorem format_rep_id_inj : Function.Injective format_rep_id := by
  intro i j h
  rw [format_rep_id, format_rep_id] at h
  injection h with h
  injection h with _ h
  injection h with _ h
  exact padNum_inj h

theorem format_sweep_id_inj : Function.Injective format_sweep_id := by
  intro i j h
  rw [format_sweep_id, format_sweep_id] at h
  injection h with h
  injection h with _ h
  injection h with _ h
  exact padNum_inj h

theorem ne_of_digit_of_not_digit {c d : Char} (hc : c.isDigit = true)
    (hd : d.isDigit = false) : c ≠ d := by
  intro h
  rw [h, hd] at hc
  exact Bool.false_ne_true hc

theorem py_isspace_of_digit {c : Char} (hc : c.isDigit = true) :
    py_isspace c = false := by
  by_contra h
  rw [Bool.not_eq_false, py_isspace, List.contains_eq_any_beq] at h
  simp only [List.any_cons, List.any_nil, Bool.or_eq_true, beq_iff_eq,
    Bool.or_false] at h
  rcases h with h | h | h | h | h | h <;> (subst h; exact absurd hc (by decide))

theorem dropWhile_eq_self_of {p : Char → Bool} {cs : List Char}
    (h : ∀ c ∈ cs, p c = false) : cs.dropWhile p = cs := by
  cases cs with
  | nil => rfl
  | cons c rest =>
    rw [List.dropWhile_cons, h c (by simp)]
    simp

theorem py_strip_of_digits {cs : List Char}
    (h : ∀ c ∈ cs, c.isDigit = true) : py_strip cs = cs := by
  have hns : ∀ c ∈ cs, py_isspace c = false :=
    fun c hc => py_isspace_of_digit (h c hc)
  rw [py_strip, dropWhile_eq_self_of hns,
    dropWhile_eq_self_of (fun c hc => hns c (List.mem_reverse.mp hc)),
    List.reverse_reverse]

theorem digitsValGo_of_digits (cs : List Char) :
    ∀ acc, (∀ c ∈ cs, c.isDigit = true) →
      digitsValGo acc cs = some (cs.foldl (fun a c => a * 10 + digitVal c) acc) := by
  induction cs with
  | nil => intro acc _; rfl
  | cons c rest ih =>
    intro acc h
    have hc : c.isDigit = true := h c (by simp)
    have hne : (c == '_') = false := by
      rw [beq_eq_false_iff_ne]
      exact ne_of_digit_of_not_digit hc rfl
    rw [digitsValGo_cons_digit acc rest hne hc]
    rw [ih _ (fun d hd => h d (by simp [hd]))]
    rfl

theorem digitsVal_of_digits {cs : List Char} (hne : cs ≠ [])
    (h : ∀ c ∈ cs, c.isDigit = true) : digitsVal cs = some (valBE cs) := by
  cases cs with
  | nil => exact absurd rfl hne
  | cons c rest =>
    rw [digitsVal, h c (by simp)]
    simp only [if_true]
    rw [digitsValGo_of_digits rest (digitVal c) (fun d hd => h d (by simp [hd]))]
    simp [valBE, List.foldl_cons, Nat.zero_mul, Nat.zero_add]

theorem py_int_of_digits {s : String} (hne : s.data ≠ [])
    (h : ∀ c ∈ s.data, c.isDigit = true) :
    py_int_of_string s = some ((valBE s.data : Nat) : Int) := by
  rw [py_int_of_string, py_strip_of_digits h]
  cases hd : s.data with
  | nil => exact absurd hd hne
  | cons c rest =>
    have hc : c.isDigit = true := h c (by rw [hd]; simp)
    have hplus : c ≠ '+' := ne_of_digit_of_not_digit hc rfl
    have hminus : c ≠ '-' := ne_of_digit_of_not_digit hc rfl
    have hall : ∀ d ∈ c :: rest, d.isDigit = true := by
      rw [← hd]; exact h
    split
    · rename_i rest2 heq
      exfalso
      rw [List.cons.injEq] at heq
      exact hplus heq.1
    · rename_i rest2 heq
      exfalso
      rw [List.cons.injEq] at heq
      exact hminus heq.1
    · rw [digitsVal_of_digits (List.cons_ne_nil c rest) hall]
      rfl

theorem parse_rep_id_format (i : Nat) :
    parse_rep_id (format_rep_id i) = some (i : Int) := by
  have hdata : (format_rep_id i).data = 'R' :: '_' :: padNum 3 i := rfl
  have hpre : py_startswith (format_rep_id i) "R_" = true := by
    rw [py_startswith, hdata]
    simp [List.isPrefixOf]
  rw [parse_rep_id, hpre]
  simp only [if_true]
  have hdrop : py_drop (format_rep_id i) 2 = String.mk (padNum 3 i) := by
    rw [py_drop, hdata]
    rfl
  rw [hdrop, @py_int_of_digits (String.mk (padNum 3 i)) (padNum_ne_nil 3 i)
    (padNum_all_digit 3 i)]
  show some ((valBE (padNum 3 i) : Nat) : Int) = some ((i : Nat) : Int)
  rw [valBE_padNum]

theorem parse_sweep_id_format (i : Nat) :
    parse_sweep_id (format_sweep_id i) = some (i : Int) := by
  have hdata : (format_sweep_id i).data = 'S' :: '_' :: padNum 4 i := rfl
  have hpre : py_startswith (format_sweep_id i) "S_" = true := by
    rw [py_startswith, hdata]
    simp [List.isPrefixOf]
  rw [parse_sweep_id, hpre]
  simp only [if_true]
  have hdrop : py_drop (format_sweep_id i) 2 = String.mk (padNum 4 i) := by
    rw [py_drop, hdata]
    rfl
  rw [hdrop, @py_int_of_digits (String.mk (padNum 4 i)) (padNum_ne_nil 4 i)
    (padNum_all_digit 4 i)]
  show some ((valBE (padNum 4 i) : Nat) : Int) = some ((i : Nat) : Int)
  rw [valBE_padNum]

theorem py_char_isdigit_of_isDigit {c : Char} (h : c.isDigit = true) :
    py_char_isdigit c = true := by
  rw [py_char_isdigit, h, Bool.true_or]

theorem py_isdigit_of_all_digit {s : String} (hne : s.data ≠ [])
    (h : ∀ c ∈ s.data, c.isDigit = true) : py_isdigit s = true := by
  rw [py_isdigit, Bool.and_eq_true]
  constructor
  · cases hd : s.data with
    | nil => exact absurd hd hne
    | cons c rest => rfl
  · rw [List.all_eq_true]
    intro c hc
    exact py_char_isdigit_of_isDigit (h c hc)

theorem is_valid_rep_id_format (i : Nat) :
    is_valid_rep_id (format_rep_id i) = true := by
  have hdata : (format_rep_id i).data = 'R' :: '_' :: padNum 3 i := rfl
  have hpre : py_startswith (format_rep_id i) "R_" = true := by
    rw [py_startswith, hdata]
    simp [List.isPrefixOf]
  have hdrop : py_drop (format_rep_id i) 2 = String.mk (padNum 3 i) := by
    rw [py_drop, hdata]
    rfl
  rw [is_valid_rep_id, hpre, hdrop,
    @py_isdigit_of_all_digit (String.mk (padNum 3 i)) (padNum_ne_nil 3 i)
      (padNum_all_digit 3 i)]
  rfl

theorem is_valid_sweep_id_format (i : Nat) :
    is_valid_sweep_id (format_sweep_id i) = true := by
  have hdata : (format_sweep_id i).data = 'S' :: '_' :: padNum 4 i := rfl
  have hpre : py_startswith (format_sweep_id i) "S_" = true := by
    rw [py_startswith, hdata]
    simp [List.isPrefixOf]
  have hdrop : py_drop (format_sweep_id i) 2 = String.mk (padNum 4 i) := by
    rw [py_drop, hdata]
    rfl
  rw [is_valid_sweep_id, hpre, hdrop,
    @py_isdigit_of_all_digit (String.mk (padNum 4 i)) (padNum_ne_nil 4 i)
      (padNum_all_digit 4 i)]
  rfl

/-- C8 counterexample: the claimed equivalence "`is_valid_rep_id s` is
true exactly when `parse_rep_id s` succeeds" fails in both directions.
At `s = "R_+5"`, Python's `int()` accepts the signed literal `"+5"` (so
parsing succeeds, yielding `5`) while `"+5".isdigit()` is false; at
`s = "R_²"`, `"²".isdigit()` is true (the superscript two has
Numeric_Type = Digit) while `int("²")` raises `ValueError`, so the id is
valid but parsing fails. -/
theorem c8_is_valid_parse_mismatch :
    (is_valid_rep_id "R_+5" = false ∧ parse_rep_id "R_+5" = some 5) ∧
    (is_valid_rep_id "R_²" = true ∧ parse_rep_id "R_²" = none) := by
  refine ⟨⟨?_, ?_⟩, ?_, ?_⟩ <;> decide

/-- C8 (amended): for every `i ≥ 0` the round-trips
`parse_rep_id (format_rep_id i) = i` and
`parse_sweep_id (format_sweep_id i) = i` hold, and the `is_valid_*`
predicates accept every formatted id; but `is_valid_*` being true is
neither sufficient nor necessary for `parse_*` to succeed:
`parse_rep_id "R_+5"` yields `5` although `is_valid_rep_id "R_+5"` is
false (`int()` accepts a signed literal that `str.isdigit` rejects), and
`is_valid_rep_id "R_²"` is true although `parse_rep_id "R_²"` raises
(`str.isdigit` accepts the superscript digit that `int()` rejects). -/
theorem c8_id_roundtrip_amended :
    (∀ i : Nat, parse_rep_id (format_rep_id i) = some (i : Int)) ∧
    (∀ i : Nat, parse_sweep_id (format_sweep_id i) = some (i : Int)) ∧
    (∀ i : Nat, is_valid_rep_id (format_rep_id i) = true) ∧
    (∀ i : Nat, is_valid_sweep_id (format_sweep_id i) = true) ∧
    (is_valid_rep_id "R_+5" = false ∧ parse_rep_id "R_+5" = some 5) ∧
    (is_valid_rep_id "R_²" = true ∧ parse_rep_id "R_²" = none) :=
  ⟨parse_rep_id_format, parse_sweep_id_format, is_valid_rep_id_format,
   is_valid_sweep_id_format, ⟨by decide, by decide⟩, by decide, by decide⟩

theorem c8_id_roundtrip_amended_witness :
    parse_rep_id (format_rep_id 7) = some 7 ∧
    parse_sweep_id (format_sweep_id 12) = some 12 ∧
    is_valid_rep_id (format_rep_id 7) = true ∧
    is_valid_sweep_id (format_sweep_id 12) = true :=
  ⟨c8_id_roundtrip_amended.1 7, c8_id_roundtrip_amended.2.1 12,
   c8_id_roundtrip_amended.2.2.1 7, c8_id_roundtrip_amended.2.2.2.1 12⟩

/-! ### `src/rem/core/sweeps.py` -/

/-- The distinct `ValueError`s `expand_sweep_node` and `merge_dicts` can
raise; the constructors stand for the distinct message texts. -/
inductive SweepErr where
  | duplicateKey : String → SweepErr          -- "Duplicate key '{k}' in sweep merge"
  | gridNotList : SweepErr                    -- "'grid' must map to a list of sub-nodes"
  | zipNotDict : SweepErr                     -- "'zip' must map to a dict of equal-length lists"
  | zipValuesNotLists : SweepErr              -- "All zip values must be lists"
  | zipUnequalLengths : SweepErr              -- "All zip lists must be the same length"
  | leafValuesNotLists : SweepErr             -- "All values in flat grid leaf must be lists"
  | invalidNode : Py → SweepErr               -- "Invalid sweep node: {node}"

/-- Inner loop of `merge_dicts`: insert the entries of one dict into the
accumulator `out`, failing on a key already present. -/
def merge_into (out : PyDict) : PyDict → Except SweepErr PyDict
  | [] => .ok out
  | (k, v) :: rest =>
      if (out.lookup k).isSome then .error (.duplicateKey k)
      else merge_into (out ++ [(k, v)]) rest

def merge_dicts_go (out : PyDict) : List PyDict → Except SweepErr PyDict
  | [] => .ok out
  | d :: ds =>
      match merge_into out d with
      | .error e => .error e
      | .ok out2 => merge_dicts_go out2 ds

/-- `merge_dicts` (sweeps.py): merge dicts left to right, raising on a
duplicate key. -/
def merge_dicts (dicts : List PyDict) : Except SweepErr PyDict :=
  merge_dicts_go [] dicts

/-- `itertools.product(*lists)`: cartesian product with the last list
varying fastest. -/
def cartProd {α : Type} : List (List α) → List (List α)
  | [] => [[]]
  | l :: rest => l.flatMap (fun v => (cartProd rest).map (fun combo => v :: combo))

/-- `all(isinstance(v, list) for v in values)` together with the
extraction of the underlying lists. -/
def asLists : List Py → Option (List (List Py))
  | [] => some []
  | .pyList l :: rest => (asLists rest).map (fun ls => l :: ls)
  | _ => none

/-- `[merge_dicts(*combo) for combo in ...]`: the first failing merge
aborts the comprehension. -/
def merge_all : List (List PyDict) → Except SweepErr (List PyDict)
  | [] => .ok []
  | combo :: rest =>
      match merge_dicts combo with
      | .error e => .error e
      | .ok d =>
          match merge_all rest with
          | .error e => .error e
          | .ok ds => .ok (d :: ds)

theorem sizeOf_lookup_lt {kvs : List (String × Py)} {k : String} {v : Py}
    (h : kvs.lookup k = some v) : sizeOf v < sizeOf kvs := by
  induction kvs with
  | nil => simp [List.lookup] at h
  | cons p rest ih =>
    obtain ⟨k2, v2⟩ := p
    rw [List.lookup] at h
    cases hbeq : k == k2 with
    | true =>
      rw [hbeq] at h
      injection h with h
      subst h
      simp only [List.cons.sizeOf_spec, Prod.mk.sizeOf_spec]
      omega
    | false =>
      rw [hbeq] at h
      have := ih h
      simp only [List.cons.sizeOf_spec, Prod.mk.sizeOf_spec]
      omega

mutual

/-- `expand_sweep_node` (sweeps.py lines 21-59): recursively expand a
sweep node into the ordered list of parameter-override dicts; `grid` and
`zip` keys are checked in that order, any other mapping is a flat grid
leaf, and every non-mapping node raises `ValueError`. -/
def expand_sweep_node : Py → Except SweepErr (List PyDict)
  | .pyDict kvs =>
      match hg : kvs.lookup "grid" with
      | some (.pyList sub_nodes) =>
          (match expand_list sub_nodes with
           | .error e => .error e
           | .ok expanded_subs => merge_all (cartProd expanded_subs))
      | some _ => .error .gridNotList
      | none =>
          match kvs.lookup "zip" with
          | some (.pyDict zip_block) =>
              (let keys := zip_block.map (·.1)
               let values := zip_block.map (·.2)
               if values.isEmpty then .error .zipValuesNotLists
               else
                 match asLists values with
                 | none => .error .zipValuesNotLists
                 | some lists =>
                     let len := (lists.headD []).length
                     if lists.all (fun v => v.length == len) then
                       .ok ((List.range len).map (fun i =>
                         keys.zip (lists.filterMap (fun v => v.get? i))))
                     else .error .zipUnequalLengths)
          | some _ => .error .zipNotDict
          | none =>
              (let keys := kvs.map (·.1)
               let values := kvs.map (·.2)
               match asLists values with
               | none => .error .leafValuesNotLists
               | some lists =>
                   .ok ((cartProd lists).map (fun combo => keys.zip combo)))
  | node => .error (.invalidNode node)
termination_by node => sizeOf node
decreasing_by
  simp_wf
  have h1 := sizeOf_lookup_lt hg
  simp only [Py.pyList.sizeOf_spec, Py.pyDict.sizeOf_spec] at h1 ⊢
  omega

/-- `[expand_sweep_node(n) for n in sub_nodes]`, aborting at the first
raised error. -/
def expand_list : List Py → Except SweepErr (List (List PyDict))
  | [] => .ok []
  | n :: rest =>
      match expand_sweep_node n with
      | .error e => .error e
      | .ok h =>
          match expand_list rest with
          | .error e => .error e
          | .ok t => .ok (h :: t)
termination_by nodes => sizeOf nodes
decreasing_by
  all_goals simp_wf
  all_goals omega

end

/-- `generate_sweep_element_ids` (sweeps.py). -/
def generate_sweep_element_ids (n : Nat) : List String :=
  (List.range n).map (fun i => format_sweep_id (i + 1))

/-- `get_sweep_elements` (sweeps.py lines 66-73). -/
def get_sweep_elements (cfg : PyDict) :
    Except SweepErr (List (String × PyDict)) :=
  match cfg.lookup "sweep" with
  | none => .ok [(format_sweep_id 1, [])]
  | some sweep_root =>
      match expand_sweep_node sweep_root with
      | .error e => .error e
      | .ok sweep_space =>
          .ok ((generate_sweep_element_ids sweep_space.length).zip sweep_space)

/-! ### `src/rem/core/config_validation.py` (`_collect_sweep_params_keys`)

The validation pass that mirrors the expansion structure.  The referenced
parameter names are collected in a Python `set`; only membership and
emptiness are ever observed, so a list (possibly with duplicates) models
it. -/

/-- The distinct `ValueError`s of `_collect_sweep_params_keys`; path
context inside the messages is dropped. -/
inductive ValErr where
  | gridNotList : ValErr
  | zipNotMapping : ValErr
  | zipValueNotSeq : String → ValErr
  | zipUnequalLengths : ValErr
  | leafValueNotSeq : String → ValErr
  | invalidStructure : Py → ValErr

/-- The zip-block loop of the validator: each value must be a non-string
sequence (in this data model, a list); collects keys and lengths. -/
def collect_zip_entries : List (String × Py) → Except ValErr (List String × List Nat)
  | [] => .ok ([], [])
  | (k, v) :: rest =>
      match v with
      | .pyList l =>
          (match collect_zip_entries rest with
           | .error e => .error e
           | .ok (ks, lens) => .ok (k :: ks, l.length :: lens))
      | _ => .error (.zipValueNotSeq k)

/-- The leaf loop of the validator: each value must be a non-string
sequence; collects keys. -/
def collect_leaf_entries : List (String × Py) → Except ValErr (List String)
  | [] => .ok []
  | (k, v) :: rest =>
      match v with
      | .pyList _ =>
          (match collect_leaf_entries rest with
           | .error e => .error e
           | .ok ks => .ok (k :: ks))
      | _ => .error (.leafValueNotSeq k)

mutual

/-- `_collect_sweep_params_keys` (config_validation.py lines 44-108):
`None` and `False` are explicitly accepted as empty sweeps, a plain list
is treated like a grid list of child nodes, mappings are `grid`/`zip`/leaf,
and anything else is an invalid structure. -/
def collect_sweep_params_keys : Py → Except ValErr (List String)
  | .pyNone => .ok []
  | .pyBool false => .ok []
  | .pyList children => collect_keys_list children
  | .pyDict kvs =>
      match hg : kvs.lookup "grid" with
      | some (.pyList grid) => collect_keys_list grid
      | some _ => .error .gridNotList
      | none =>
          match kvs.lookup "zip" with
          | some (.pyDict zip_block) =>
              (match collect_zip_entries zip_block with
               | .error e => .error e
               | .ok (ks, lens) =>
                   match lens with
                   | [] => .ok ks
                   | l0 :: rest =>
                       if rest.all (· == l0) then .ok ks
                       else .error .zipUnequalLengths)
          | some _ => .error .zipNotMapping
          | none => collect_leaf_entries kvs
  | node => .error (.invalidStructure node)
termination_by node => sizeOf node
decreasing_by
  all_goals simp_wf
  all_goals first
  | omega
  | (have h1 := sizeOf_lookup_lt hg
     simp only [Py.pyList.sizeOf_spec, Py.pyDict.sizeOf_spec] at h1 ⊢
     omega)

/-- The `keys |= _collect_sweep_params_keys(child)` loop over a list of
child nodes. -/
def collect_keys_list : List Py → Except ValErr (List String)
  | [] => .ok []
  | n :: rest =>
      match collect_sweep_params_keys n with
      | .error e => .error e
      | .ok ks =>
          match collect_keys_list rest with
          | .error e => .error e
          | .ok ks2 => .ok (ks ++ ks2)
termination_by nodes => sizeOf nodes
decreasing_by
  all_goals simp_wf
  all_goals omega

end

/-! ### Claims C5, C6, C7 -/

/-- Modelled from the spec: the cartesian product over a leaf grid's lists
in declaration order, with the last-declared key fastest-varying (spec
section 4.2, case 2). -/
def leafProductSpec : List (String × List Py) → List PyDict
  | [] => [[]]
  | (k, vs) :: rest =>
      vs.flatMap (fun v => (leafProductSpec rest).map (fun d => (k, v) :: d))

theorem lookup_none_of_not_mem_keys {β : Type} {l : List (String × β)} {k : String}
    (h : k ∉ l.map (·.1)) : l.lookup k = none := by
  induction l with
  | nil => rfl
  | cons p rest ih =>
    obtain ⟨k2, v2⟩ := p
    simp only [List.map_cons, List.mem_cons, not_or] at h
    rw [List.lookup]
    have : (k == k2) = false := by
      rw [beq_eq_false_iff_ne]
      exact h.1
    rw [this]
    exact ih h.2

theorem asLists_map_pyList (l : List (String × List Py)) :
    asLists (l.map (fun p => Py.pyList p.2)) = some (l.map (·.2)) := by
  induction l with
  | nil => rfl
  | cons p rest ih => simp [asLists, ih]

theorem leaf_product_eq (kvs : List (String × List Py)) :
    (cartProd (kvs.map (·.2))).map (fun combo => (kvs.map (·.1)).zip combo)
      = leafProductSpec kvs := by
  induction kvs with
  | nil => rfl
  | cons p rest ih =>
    obtain ⟨k, vs⟩ := p
    simp only [List.map_cons, cartProd, leafProductSpec]
    rw [List.map_flatMap]
    refine congrArg vs.flatMap (funext fun v => ?_)
    rw [List.map_map]
    have hcomp :
        ((fun combo => (k :: rest.map (·.1)).zip combo) ∘ (fun combo => v :: combo))
          = (fun d => (k, v) :: d) ∘ (fun combo => (rest.map (·.1)).zip combo) := by
      funext combo
      rfl
    rw [hcomp, ← List.map_map, ih]

/-- C5: a leaf sweep node (mapping of parameter names to lists of
candidate values) expands to the cartesian product over its lists in
declaration order with the last-declared key fastest-varying; in
particular `{lr: [0.01, 0.1], batch_size: [32, 64]}` expands to exactly
the four dicts in the order stated by the claim. -/
theorem c5_leaf_expansion :
    (∀ kvs : List (String × List Py),
      "grid" ∉ kvs.map (·.1) → "zip" ∉ kvs.map (·.1) →
      expand_sweep_node (.pyDict (kvs.map (fun p => (p.1, Py.pyList p.2))))
        = .ok (leafProductSpec kvs)) ∧
    expand_sweep_node (.pyDict
        [("lr", .pyList [.pyRat 0.01, .pyRat 0.1]),
         ("batch_size", .pyList [.pyInt 32, .pyInt 64])])
      = .ok [[("lr", .pyRat 0.01), ("batch_size", .pyInt 32)],
             [("lr", .pyRat 0.01), ("batch_size", .pyInt 64)],
             [("lr", .pyRat 0.1), ("batch_size", .pyInt 32)],
             [("lr", .pyRat 0.1), ("batch_size", .pyInt 64)]] := by
  have hgen : ∀ kvs : List (String × List Py),
      "grid" ∉ kvs.map (·.1) → "zip" ∉ kvs.map (·.1) →
      expand_sweep_node (.pyDict (kvs.map (fun p => (p.1, Py.pyList p.2))))
        = .ok (leafProductSpec kvs) := by
    intro kvs hgrid hzip
    have hkeys : (kvs.map (fun p => (p.1, Py.pyList p.2))).map (·.1)
        = kvs.map (·.1) := by
      rw [List.map_map]
      rfl
    have hg : (kvs.map (fun p => (p.1, Py.pyList p.2))).lookup "grid" = none :=
      lookup_none_of_not_mem_keys (by rw [hkeys]; exact hgrid)
    have hz : (kvs.map (fun p => (p.1, Py.pyList p.2))).lookup "zip" = none :=
      lookup_none_of_not_mem_keys (by rw [hkeys]; exact hzip)
    have hvals : (kvs.map (fun p => (p.1, Py.pyList p.2))).map (·.2)
        = kvs.map (fun p => Py.pyList p.2) := by
      rw [List.map_map]
      rfl
    simp only [expand_sweep_node]
    split
    · rename_i heq
      rw [hg] at heq
      cases heq
    · rename_i heq
      rw [hg] at heq
      cases heq
    · simp only [hz, hkeys, hvals, asLists_map_pyList, leaf_product_eq]
  refine ⟨hgen, ?_⟩
  have h := hgen
    [("lr", [.pyRat 0.01, .pyRat 0.1]), ("batch_size", [.pyInt 32, .pyInt 64])]
    (by decide) (by decide)
  exact h

theorem c5_leaf_expansion_witness :
    "grid" ∉ (["lr", "batch_size"] : List String) ∧
    expand_sweep_node (.pyDict [("lr", .pyList [.pyInt 1, .pyInt 2])])
      = .ok [[("lr", .pyInt 1)], [("lr", .pyInt 2)]] := by
  refine ⟨by decide, ?_⟩
  exact c5_leaf_expansion.1 [("lr", [.pyInt 1, .pyInt 2])] (by decide) (by decide)

/-- C6: the claim "absent / null / false / empty sweep spec yields exactly
one element with an empty override map" holds for an absent key and for an
empty mapping, but `get_sweep_elements` raises `ValueError("Invalid sweep
node: ...")` on `sweep: null` and `sweep: false` — although the
configuration validator `_collect_sweep_params_keys` explicitly accepts
`None` and `False` as empty sweeps, so a validated configuration crashes
at expansion. -/
theorem c6_null_false_sweep_rejected :
    get_sweep_elements [] = .ok [("S_0001", [])] ∧
    get_sweep_elements [("sweep", Py.pyDict [])] = .ok [("S_0001", [])] ∧
    get_sweep_elements [("sweep", Py.pyNone)] = .error (.invalidNode .pyNone) ∧
    get_sweep_elements [("sweep", Py.pyBool false)]
      = .error (.invalidNode (.pyBool false)) ∧
    collect_sweep_params_keys Py.pyNone = .ok [] ∧
    collect_sweep_params_keys (Py.pyBool false) = .ok [] := by
  refine ⟨rfl, ?_, ?_, ?_, ?_, ?_⟩
  · simp [get_sweep_elements, List.lookup, expand_sweep_node, asLists, cartProd,
      generate_sweep_element_ids]
    rfl
  · simp [get_sweep_elements, List.lookup, expand_sweep_node]
  · simp [get_sweep_elements, List.lookup, expand_sweep_node]
  · simp [collect_sweep_params_keys]
  · simp [collect_sweep_params_keys]

/-- C7: the claim that a plain list at any position of a sweep spec is
expanded as an implicit grid of its elements fails in
`expand_sweep_node`, which raises `ValueError("Invalid sweep node: ...")`
on a list — while the equivalent `{grid: <list>}` node expands fine and
the validator `_collect_sweep_params_keys` does treat a plain list as a
grid list of children. -/
theorem c7_plain_list_rejected :
    expand_sweep_node (.pyList [Py.pyDict [("a", Py.pyList [Py.pyInt 1])]])
      = .error (.invalidNode (.pyList [Py.pyDict [("a", Py.pyList [Py.pyInt 1])]])) ∧
    expand_sweep_node (.pyDict
        [("grid", Py.pyList [Py.pyDict [("a", Py.pyList [Py.pyInt 1])]])])
      = .ok [[("a", Py.pyInt 1)]] ∧
    collect_sweep_params_keys (.pyList [Py.pyDict [("a", Py.pyList [Py.pyInt 1])]])
      = .ok ["a"] := by
  refine ⟨?_, ?_, ?_⟩
  · simp [expand_sweep_node]
  · simp [expand_sweep_node, expand_list, List.lookup, asLists, cartProd,
      merge_all, merge_dicts, merge_dicts_go, merge_into]
  · simp [collect_sweep_params_keys, collect_keys_list, List.lookup,
      collect_leaf_entries]

/-! ### Claim C9: `update_rep_manifest` / `update_sweep_manifest`

`update_*_manifest(path, updates)` loads the manifest, iterates over the
update dict in insertion order applying `setattr`, raises
`ValueError("Invalid status ...")` as soon as it meets a `status` key
whose value is outside `VALID_STATUSES`, and only calls `save` after the
whole loop succeeded.  The manifest object is modelled as its attribute
map; the persisted file keeps its old contents whenever the loop
raises.  A Python dict cannot repeat a key, so the `status` entry of the
update map is the one `List.lookup` finds. -/

/-- `v not in VALID_STATUSES` for a dynamically typed value: only a
string belonging to the status set passes. -/
def status_value_valid : Py → Bool
  | .pyStr s => VALID_STATUSES.contains s
  | _ => false

/-- `setattr(manifest, k, v)` on the attribute map. -/
def setattr_py (obj : PyDict) (k : String) (v : Py) : PyDict :=
  if (obj.lookup k).isSome then obj.map (fun p => if p.1 == k then (k, v) else p)
  else obj ++ [(k, v)]

inductive ManifestUpdErr where
  | invalidRepStatus : Py → ManifestUpdErr     -- "Invalid status '{v}' for rep manifest."
  | invalidSweepStatus : Py → ManifestUpdErr   -- "Invalid status '{v}' for sweep manifest."

/-- The field loop of `update_rep_manifest` (manifest.py lines 109-112). -/
def update_fields_rep_go (m : PyDict) : List (String × Py) → Except ManifestUpdErr PyDict
  | [] => .ok m
  | (k, v) :: rest =>
      if k == "status" && !(status_value_valid v) then .error (.invalidRepStatus v)
      else update_fields_rep_go (setattr_py m k v) rest

/-- `update_rep_manifest` (manifest.py lines 107-114) as a transformation
of the persisted manifest: on success the mutated manifest is saved, on a
raised `ValueError` the file keeps its previous contents. -/
def update_rep_manifest_dict (stored : PyDict) (updates : List (String × Py)) : PyDict :=
  match update_fields_rep_go stored updates with
  | .ok m2 => m2
  | .error _ => stored

/-- The field loop of `update_sweep_manifest` (manifest.py lines 119-122). -/
def update_fields_sweep_go (m : PyDict) : List (String × Py) → Except ManifestUpdErr PyDict
  | [] => .ok m
  | (k, v) :: rest =>
      if k == "status" && !(status_value_valid v) then .error (.invalidSweepStatus v)
      else update_fields_sweep_go (setattr_py m k v) rest

/-- `update_sweep_manifest` (manifest.py lines 117-124) as a
transformation of the persisted manifest. -/
def update_sweep_manifest_dict (stored : PyDict) (updates : List (String × Py)) : PyDict :=
  match update_fields_sweep_go stored updates with
  | .ok m2 => m2
  | .error _ => stored

theorem update_fields_rep_go_error (updates : List (String × Py)) :
    ∀ (m : PyDict) (v : Py), updates.lookup "status" = some v →
      status_value_valid v = false →
      update_fields_rep_go m updates = .error (.invalidRepStatus v) := by
  induction updates with
  | nil => intro m v h _; cases h
  | cons p rest ih =>
    intro m v h hv
    obtain ⟨k, u⟩ := p
    rw [List.lookup] at h
    cases hbeq : "status" == k with
    | true =>
      rw [hbeq] at h
      injection h with h
      subst h
      have hk : k = "status" := (beq_iff_eq.mp hbeq).symm
      subst hk
      rw [update_fields_rep_go, if_pos]
      rw [hv]
      rfl
    | false =>
      rw [hbeq] at h
      have hk : (k == "status") = false := by
        rw [beq_eq_false_iff_ne]
        exact fun he => (beq_eq_false_iff_ne.mp hbeq) he.symm
      rw [update_fields_rep_go, if_neg (by rw [hk]; simp)]
      exact ih _ v h hv

theorem update_fields_sweep_go_error (updates : List (String × Py)) :
    ∀ (m : PyDict) (v : Py), updates.lookup "status" = some v →
      status_value_valid v = false →
      update_fields_sweep_go m updates = .error (.invalidSweepStatus v) := by
  induction updates with
  | nil => intro m v h _; cases h
  | cons p rest ih =>
    intro m v h hv
    obtain ⟨k, u⟩ := p
    rw [List.lookup] at h
    cases hbeq : "status" == k with
    | true =>
      rw [hbeq] at h
      injection h with h
      subst h
      have hk : k = "status" := (beq_iff_eq.mp hbeq).symm
      subst hk
      rw [update_fields_sweep_go, if_pos]
      rw [hv]
      rfl
    | false =>
      rw [hbeq] at h
      have hk : (k == "status") = false := by
        rw [beq_eq_false_iff_ne]
        exact fun he => (beq_eq_false_iff_ne.mp hbeq) he.symm
      rw [update_fields_sweep_go, if_neg (by rw [hk]; simp)]
      exact ih _ v h hv

/-- C9: for every stored manifest and every field-update map whose
`status` entry carries a value outside the fixed status set, the update
operation raises the validation `ValueError` before saving, so the
persisted manifest is unchanged — whatever the other fields in the map
and their order (they precede or follow the `status` entry freely); shown
for the rep and the sweep update operations. -/
theorem c9_invalid_status_update_rejected
    (stored : PyDict) (updates : List (String × Py)) (v : Py)
    (hlook : updates.lookup "status" = some v)
    (hv : status_value_valid v = false) :
    update_fields_rep_go stored updates = .error (.invalidRepStatus v) ∧
    update_rep_manifest_dict stored updates = stored ∧
    update_fields_sweep_go stored updates = .error (.invalidSweepStatus v) ∧
    update_sweep_manifest_dict stored updates = stored := by
  have h1 := update_fields_rep_go_error updates stored v hlook hv
  have h2 := update_fields_sweep_go_error updates stored v hlook hv
  refine ⟨h1, ?_, h2, ?_⟩
  · rw [update_rep_manifest_dict, h1]
  · rw [update_sweep_manifest_dict, h2]

theorem c9_invalid_status_update_rejected_witness :
    ([("artifacts", Py.pyDict []), ("status", Py.pyStr "DONE")] : List (String × Py)).lookup
        "status" = some (Py.pyStr "DONE") ∧
    update_rep_manifest_dict
        [("status", Py.pyStr "PENDING"), ("rep_id", Py.pyStr "R_001")]
        [("artifacts", Py.pyDict []), ("status", Py.pyStr "DONE")]
      = [("status", Py.pyStr "PENDING"), ("rep_id", Py.pyStr "R_001")] ∧
    update_sweep_manifest_dict
        [("status", Py.pyStr "PENDING"), ("rep_id", Py.pyStr "R_001")]
        [("artifacts", Py.pyDict []), ("status", Py.pyStr "DONE")]
      = [("status", Py.pyStr "PENDING"), ("rep_id", Py.pyStr "R_001")] := by
  have h := c9_invalid_status_update_rejected
    [("status", Py.pyStr "PENDING"), ("rep_id", Py.pyStr "R_001")]
    [("artifacts", Py.pyDict []), ("status", Py.pyStr "DONE")]
    (Py.pyStr "DONE") rfl rfl
  exact ⟨rfl, h.2.1, h.2.2.2⟩

/-! ### The orchestrator (`src/rem/core/runner.py` and
`src/rem/core/registry.py`)

One invocation of `MainRunner.start` is modelled as a pure function from
the group's on-disk state (`FS`) to its final state, the list of events
appended during the invocation, the number of experiment executions, and
the error that escaped to the caller (if any).  Configuration loading and
resolution (`prepare_config_for_run`, subconfig files) only feed the
opaque experiment and never influence statuses or events, so they are
abstracted into the experiment-outcome function.  Wall-clock timestamps
are omitted as before. -/

/-- A registry event (`{type, group_id, timestamp, ...}`); `timestamp` is
always freshly generated and never branched on, and the `parameters`
payload of `SUBMIT_SWEEP` is a config echo, so both are omitted. -/
structure Event where
  type : String
  group_id : String
  sweep_id : Option String := none
  status : Option String := none
  num_reps : Option Nat := none
  deriving DecidableEq

/-- `VALID_EVENT_TYPES` (registry.py). -/
def VALID_EVENT_TYPES : List String :=
  ["CREATE_GROUP", "PATCH_GROUP", "SUBMIT_SWEEP", "UPDATE_STATUS"]

/-- The exceptions that can escape the orchestrator's helpers in the
modelled flows; constructors stand for the distinct raise sites. -/
inductive OrchErr where
  | invalidEventType : String → OrchErr
  | eventStatusMissing : OrchErr
  | invalidEventStatus : String → OrchErr
  | invalidRepStatus : String → OrchErr     -- "Invalid status '{v}' for rep manifest."
  | invalidSweepStatus : String → OrchErr   -- "Invalid status '{v}' for sweep manifest."
  | invalidGroupStatus : String → OrchErr   -- "Invalid status '{v}' for group manifest."
  | repManifestNotFound : String → OrchErr  -- RepManifest.load on a missing file
  deriving DecidableEq

/-- `RegistryManager._validate_event` (registry.py lines 93-113), for the
events the orchestrator builds (`type`, `group_id` and `timestamp` are
always present by construction). -/
def validate_event (e : Event) : Except OrchErr Unit :=
  if !(VALID_EVENT_TYPES.contains e.type) then .error (.invalidEventType e.type)
  else if e.type == "UPDATE_STATUS" then
    match e.status with
    | none => .error .eventStatusMissing
    | some s =>
        if !(VALID_STATUSES.contains s) then .error (.invalidEventStatus s)
        else .ok ()
  else .ok ()

/-- `RegistryManager.append_event` (registry.py lines 33-42): validate,
then append one record to the log. -/
def append_event (events : List Event) (e : Event) : Except OrchErr (List Event) :=
  match validate_event e with
  | .error err => .error err
  | .ok _ => .ok (events ++ [e])

/-- `update_rep_manifest(path, {"status": s, ...})` for the literal dicts
the orchestrator passes: membership check on the status value, then the
assignment (the accompanying timestamp fields are abstracted). -/
def update_rep_status (rm : RepManifest) (s : String) : Except OrchErr RepManifest :=
  if !(VALID_STATUSES.contains s) then .error (.invalidRepStatus s)
  else .ok {rm with status := s}

/-- `update_sweep_manifest(path, {"status": s})` likewise. -/
def update_sweep_status (sm : SweepManifest) (s : String) : Except OrchErr SweepManifest :=
  if !(VALID_STATUSES.contains s) then .error (.invalidSweepStatus s)
  else .ok {sm with status := s}

/-- `update_group_manifest(path, {"status": s})` likewise. -/
def update_group_status (gm : GroupManifest) (s : String) : Except OrchErr GroupManifest :=
  if !(VALID_STATUSES.contains s) then .error (.invalidGroupStatus s)
  else .ok {gm with status := s}

/-- Outcome of constructing and running the external experiment for one
rep: either `run()` returns a value, or something in the guarded block
raises. -/
inductive ExpOutcome where
  | success : Py → ExpOutcome
  | raised : ExpOutcome

/-- The external experiment boundary, as a function of the (sweep, rep)
being executed. -/
def Exp : Type := String → String → ExpOutcome

/-- `results if isinstance(results, dict) else {"results": results}`. -/
def to_artifacts : Py → PyDict
  | .pyDict d => d
  | v => [("results", v)]

/-- `RepManifest.load` at the manifest path of `rep_id` inside one sweep
directory; the directory's rep manifests are keyed by their id. -/
def load_rep (reps : List RepManifest) (rid : String) : Except OrchErr RepManifest :=
  match reps.find? (fun rm => rm.rep_id == rid) with
  | some rm => .ok rm
  | none => .error (.repManifestNotFound rid)

/-- Saving a rep manifest back to the path of `rep_id`. -/
def store_rep (reps : List RepManifest) (rid : String) (rm2 : RepManifest) :
    List RepManifest :=
  reps.map (fun rm => if rm.rep_id == rid then rm2 else rm)

/-- `run_single_rep` (runner.py lines 236-277): mark the rep RUNNING,
invoke the experiment, then COMPLETED with captured artifacts on normal
return or CRASHED on any raised failure.  Each `update_rep_manifest` in
the source reloads from disk; nothing else writes between the calls, so
chaining on the loaded manifest is equivalent. -/
def run_single_rep (outcome : ExpOutcome) (reps : List RepManifest) (rid : String) :
    Except OrchErr (List RepManifest) :=
  match load_rep reps rid with
  | .error e => .error e
  | .ok rm =>
      match update_rep_status rm "RUNNING" with
      | .error e => .error e
      | .ok rm1 =>
          match outcome with
          | .success results =>
              (match update_rep_status rm1 "COMPLETED" with
               | .error e => .error e
               | .ok rm2 =>
                   .ok (store_rep reps rid
                     {rm2 with artifacts := to_artifacts results}))
          | .raised =>
              (match update_rep_status rm1 "CRASHED" with
               | .error e => .error e
               | .ok rm2 => .ok (store_rep reps rid rm2))

/-- The on-disk state of one group: its manifest and, in sorted id order
(ids are zero-padded, so directory-listing order and creation order
agree), each sweep's manifest with its rep manifests. -/
structure FS where
  group : GroupManifest
  sweeps : List (SweepManifest × List RepManifest)

/-- The sweep-scoped `UPDATE_STATUS` event. -/
def sweepEvt (gid sid st : String) : Event :=
  { type := "UPDATE_STATUS", group_id := gid, sweep_id := some sid,
    status := some st }

/-- The group-scoped `UPDATE_STATUS` event. -/
def groupEvt (gid st : String) : Event :=
  { type := "UPDATE_STATUS", group_id := gid, status := some st }

/-- `stage_sweep` (runner.py lines 146-186): the initial sweep manifest
carries `max(num_reps, 1)` placeholder rep summaries. -/
def staged_sweep_manifest (sid : String) (overrides : PyDict) (num_reps : Nat) :
    SweepManifest :=
  { sweep_id := sid
    parameter_combination := overrides
    num_reps := max num_reps 1
    reps := (List.range (max num_reps 1)).map
      (fun i => ⟨format_rep_id (i + 1), "PENDING", 1⟩)
    status := "PENDING" }

/-- `stage_rep` (runner.py lines 189-233): the initial rep manifest. -/
def staged_rep_manifest (gid sid rid : String) (overrides : PyDict) : RepManifest :=
  { rep_id := rid, sweep_id := sid, group_id := gid, version := 1,
    status := "PENDING", artifacts := [], parameters := overrides }

/-- The staged rep manifests of one sweep: `for r in range(reps_per_sweep)`
(runner.py lines 528-537). -/
def staged_reps (gid sid : String) (overrides : PyDict) (reps_per_sweep : Nat) :
    List RepManifest :=
  (List.range reps_per_sweep).map
    (fun r => staged_rep_manifest gid sid (format_rep_id (r + 1)) overrides)

/-- The sweep directories staged for the sweep elements. -/
def staged_sweeps (gid : String) (elements : List (String × PyDict))
    (reps_per_sweep : Nat) : List (SweepManifest × List RepManifest) :=
  elements.map (fun el =>
    (staged_sweep_manifest el.1 el.2 reps_per_sweep,
     staged_reps gid el.1 el.2 reps_per_sweep))

/-- The staging phase of `MainRunner.start` for a new group (runner.py
lines 499-537): group directory, manifest and `CREATE_GROUP` event, then
per sweep element the sweep manifest, one `SUBMIT_SWEEP` event and the
staged rep manifests.  `_validate_event` accepts `CREATE_GROUP` and
`SUBMIT_SWEEP` unconditionally, so staging appends cannot fail. -/
def stage_new_group (gid : String) (elements : List (String × PyDict))
    (reps_per_sweep : Nat) : FS × List Event :=
  (⟨{ group_id := gid, status := "PENDING" },
    staged_sweeps gid elements reps_per_sweep⟩,
   { type := "CREATE_GROUP", group_id := gid } ::
     elements.map (fun el =>
       { type := "SUBMIT_SWEEP", group_id := gid, sweep_id := some el.1,
         num_reps := some (max reps_per_sweep 1) }))

/-- Result of a rep-execution loop. -/
structure RepsExecRes where
  reps : List RepManifest
  posted : Bool
  events : List Event
  execCount : Nat
  err : Option OrchErr

/-- The inner loop `for r in range(reps_per_sweep)` of the new-group
execution phase (runner.py lines 557-582): post the one-shot group-level
RUNNING event before the first rep ever runs, then `run_single_rep`.
After the posting block the flag is true on every path. -/
def exec_reps (exp : Exp) (gid sid : String) :
    List Nat → Bool → List Event → Nat → List RepManifest → RepsExecRes
  | [], posted, evs, cnt, reps => ⟨reps, posted, evs, cnt, none⟩
  | r :: rest, posted, evs, cnt, reps =>
      let rid := format_rep_id (r + 1)
      match (if !posted then append_event evs (groupEvt gid "RUNNING")
             else .ok evs) with
      | .error e => ⟨reps, posted, evs, cnt, some e⟩
      | .ok evs1 =>
          match run_single_rep (exp sid rid) reps rid with
          | .error e => ⟨reps, true, evs1, cnt, some e⟩
          | .ok reps1 => exec_reps exp gid sid rest true evs1 (cnt + 1) reps1

/-- Re-reading the rep manifests `for r in range(reps_per_sweep)` to
build the summary entries (runner.py lines 585-598); `RepManifest.load`
raises if a manifest is missing. -/
def collect_entries_range (reps : List RepManifest) :
    List Nat → Except OrchErr (List RepEntry)
  | [] => .ok []
  | r :: rest =>
      match load_rep reps (format_rep_id (r + 1)) with
      | .error e => .error e
      | .ok rm =>
          match collect_entries_range reps rest with
          | .error e => .error e
          | .ok es => .ok (⟨rm.rep_id, rm.status⟩ :: es)

/-- Result of processing one sweep. -/
structure SweepExecRes where
  sweep : SweepManifest × List RepManifest
  posted : Bool
  events : List Event
  execCount : Nat
  err : Option OrchErr

/-- One sweep of the new-group execution phase (runner.py lines 550-611):
mark the sweep manifest RUNNING, run its reps, reload the rep manifests,
aggregate via `summarize_sweep_status`, persist the aggregate through the
validated `update_sweep_manifest`, and append the sweep-scoped
`UPDATE_STATUS` event. -/
def exec_sweep (exp : Exp) (gid : String) (reps_per_sweep : Nat)
    (sw : SweepManifest × List RepManifest) (posted : Bool) (evs : List Event)
    (cnt : Nat) : SweepExecRes :=
  match update_sweep_status sw.1 "RUNNING" with
  | .error e => ⟨sw, posted, evs, cnt, some e⟩
  | .ok sm1 =>
      let r := exec_reps exp gid sw.1.sweep_id (List.range reps_per_sweep)
        posted evs cnt sw.2
      match r.err with
      | some e => ⟨(sm1, r.reps), r.posted, r.events, r.execCount, some e⟩
      | none =>
          match collect_entries_range r.reps (List.range reps_per_sweep) with
          | .error e => ⟨(sm1, r.reps), r.posted, r.events, r.execCount, some e⟩
          | .ok entries =>
              let sweep_status := summarize_sweep_status entries
              match update_sweep_status sm1 sweep_status with
              | .error e => ⟨(sm1, r.reps), r.posted, r.events, r.execCount, some e⟩
              | .ok sm2 =>
                  match append_event r.events
                      (sweepEvt gid sw.1.sweep_id sweep_status) with
                  | .error e => ⟨(sm2, r.reps), r.posted, r.events, r.execCount, some e⟩
                  | .ok evs2 => ⟨(sm2, r.reps), r.posted, evs2, r.execCount, none⟩

/-- Result of processing a list of sweeps. -/
structure SweepsExecRes where
  sweeps : List (SweepManifest × List RepManifest)
  posted : Bool
  events : List Event
  execCount : Nat
  err : Option OrchErr

/-- The `for sweep_id, overrides in sweep_elements` execution loop; a
raised error stops the loop and propagates, leaving the remaining sweeps
untouched. -/
def exec_sweeps (exp : Exp) (gid : String) (reps_per_sweep : Nat) :
    List (SweepManifest × List RepManifest) → Bool → List Event → Nat →
      SweepsExecRes
  | [], posted, evs, cnt => ⟨[], posted, evs, cnt, none⟩
  | sw :: rest, posted, evs, cnt =>
      let r := exec_sweep exp gid reps_per_sweep sw posted evs cnt
      match r.err with
      | some e => ⟨r.sweep :: rest, r.posted, r.events, r.execCount, some e⟩
      | none =>
          let r2 := exec_sweeps exp gid reps_per_sweep rest r.posted r.events
            r.execCount
          ⟨r.sweep :: r2.sweeps, r2.posted, r2.events, r2.execCount, r2.err⟩

/-- The observable result of one `MainRunner.start` invocation: final
on-disk state, events appended by this invocation, number of experiment
executions, and the exception that escaped `start` (if any). -/
structure RunOutcome where
  fs : FS
  events : List Event
  execCount : Nat
  error : Option OrchErr

/-- `MainRunner.start` without a `group_id` (runner.py lines 496-640):
validate and stage, stop after staging when dry-run, otherwise execute
every sweep and finish with the group-level aggregation, the validated
group-manifest update and the group-scoped `UPDATE_STATUS` event. -/
def main_runner_start_new (exp : Exp) (gid : String)
    (elements0 : List (String × PyDict)) (reps_per_sweep : Nat)
    (dryrun : Bool) : RunOutcome :=
  let elements := if elements0.isEmpty then [("S_0001", [])] else elements0
  let staged := stage_new_group gid elements reps_per_sweep
  if dryrun then ⟨staged.1, staged.2, 0, none⟩
  else
    let r := exec_sweeps exp gid reps_per_sweep staged.1.sweeps false staged.2 0
    match r.err with
    | some e => ⟨⟨staged.1.group, r.sweeps⟩, r.events, r.execCount, some e⟩
    | none =>
        let group_status := summarize_group_status (r.sweeps.map (·.1))
        match update_group_status staged.1.group group_status with
        | .error e => ⟨⟨staged.1.group, r.sweeps⟩, r.events, r.execCount, some e⟩
        | .ok g2 =>
            match append_event r.events (groupEvt gid group_status) with
            | .error e => ⟨⟨staged.1.group, r.sweeps⟩, r.events, r.execCount, some e⟩
            | .ok evs2 => ⟨⟨g2, r.sweeps⟩, evs2, r.execCount, none⟩

/-- The rep loop of the resume flow (runner.py lines 385-435): iterate
the rep directories in sorted order, skip a directory whose manifest is
missing (with a warning), skip terminal reps entirely, otherwise post the
one-shot group RUNNING event and execute the rep. -/
def resume_reps (exp : Exp) (gid sid : String) :
    List String → Bool → List Event → Nat → List RepManifest → RepsExecRes
  | [], posted, evs, cnt, reps => ⟨reps, posted, evs, cnt, none⟩
  | rid :: rest, posted, evs, cnt, reps =>
      match reps.find? (fun rm => rm.rep_id == rid) with
      | none => resume_reps exp gid sid rest posted evs cnt reps
      | some rm =>
          if is_terminal rm.status then resume_reps exp gid sid rest posted evs cnt reps
          else
            match (if !posted then append_event evs (groupEvt gid "RUNNING")
                   else .ok evs) with
            | .error e => ⟨reps, posted, evs, cnt, some e⟩
            | .ok evs1 =>
                match run_single_rep (exp sid rid) reps rid with
                | .error e => ⟨reps, true, evs1, cnt, some e⟩
                | .ok reps1 => resume_reps exp gid sid rest true evs1 (cnt + 1) reps1

/-- Rebuilding the rep-entry summaries over the rep directories on resume
(runner.py lines 439-456); directories without a manifest are skipped. -/
def collect_entries_dirs (reps : List RepManifest) : List String → List RepEntry
  | [] => []
  | rid :: rest =>
      match reps.find? (fun rm => rm.rep_id == rid) with
      | some rm => ⟨rm.rep_id, rm.status⟩ :: collect_entries_dirs reps rest
      | none => collect_entries_dirs reps rest

/-- One sweep of the resume flow (runner.py lines 367-467): process the
existing rep directories, then aggregate, persist and append the
sweep-scoped event exactly as in the new-group flow (the sweep manifest
is not marked RUNNING on resume). -/
def resume_sweep (exp : Exp) (gid : String)
    (sw : SweepManifest × List RepManifest) (posted : Bool) (evs : List Event)
    (cnt : Nat) : SweepExecRes :=
  let rep_ids := sw.2.map (·.rep_id)
  let r := resume_reps exp gid sw.1.sweep_id rep_ids posted evs cnt sw.2
  match r.err with
  | some e => ⟨(sw.1, r.reps), r.posted, r.events, r.execCount, some e⟩
  | none =>
      let entries := collect_entries_dirs r.reps rep_ids
      let sweep_status := summarize_sweep_status entries
      match update_sweep_status sw.1 sweep_status with
      | .error e => ⟨(sw.1, r.reps), r.posted, r.events, r.execCount, some e⟩
      | .ok sm2 =>
          match append_event r.events (sweepEvt gid sw.1.sweep_id sweep_status) with
          | .error e => ⟨(sm2, r.reps), r.posted, r.events, r.execCount, some e⟩
          | .ok evs2 => ⟨(sm2, r.reps), r.posted, evs2, r.execCount, none⟩

/-- The sweep-directory loop of the resume flow. -/
def resume_sweeps (exp : Exp) (gid : String) :
    List (SweepManifest × List RepManifest) → Bool → List Event → Nat →
      SweepsExecRes
  | [], posted, evs, cnt => ⟨[], posted, evs, cnt, none⟩
  | sw :: rest, posted, evs, cnt =>
      let r := resume_sweep exp gid sw posted evs cnt
      match r.err with
      | some e => ⟨r.sweep :: rest, r.posted, r.events, r.execCount, some e⟩
      | none =>
          let r2 := resume_sweeps exp gid rest r.posted r.events r.execCount
          ⟨r.sweep :: r2.sweeps, r2.posted, r2.events, r2.execCount, r2.err⟩

/-- `MainRunner.start` with an existing `group_id` (runner.py lines
355-494): resume over the persisted group state, ending with the
group-level aggregation, validated persist, and group-scoped event. -/
def main_runner_start_resume (exp : Exp) (gid : String) (fs : FS) : RunOutcome :=
  let r := resume_sweeps exp gid fs.sweeps false [] 0
  match r.err with
  | some e => ⟨⟨fs.group, r.sweeps⟩, r.events, r.execCount, some e⟩
  | none =>
      let group_status := summarize_group_status (r.sweeps.map (·.1))
      match update_group_status fs.group group_status with
      | .error e => ⟨⟨fs.group, r.sweeps⟩, r.events, r.execCount, some e⟩
      | .ok g2 =>
          match append_event r.events (groupEvt gid group_status) with
          | .error e => ⟨⟨fs.group, r.sweeps⟩, r.events, r.execCount, some e⟩
          | .ok evs2 => ⟨⟨g2, r.sweeps⟩, evs2, r.execCount, none⟩

/-! ### Claim C1 -/

/-- An experiment that raises on rep `R_001` and returns normally on
every other rep. -/
def c1_exp : Exp := fun _ rid =>
  if rid == "R_001" then .raised
  else .success (.pyDict [("status", .pyStr "ok")])

/-- C1: at a non-dry-run start with one sweep and two reps where the
experiment raises on `R_001` and returns normally on `R_002`, the code
marks the failing rep CRASHED, continues and completes `R_002`, computes
the aggregate `PARTIAL_COMPLETION` — but then
`update_sweep_manifest` raises `ValueError("Invalid status
'PARTIAL_COMPLETION' for sweep manifest.")` because `VALID_STATUSES`
does not contain the aggregate statuses, so no sweep-scoped
`UPDATE_STATUS` event is appended, the sweep manifest keeps status
`RUNNING`, and the error escapes `start` — contradicting the claim that
the status is persisted, the event appended and the failure contained. -/
theorem c1_partial_completion_escapes :
    (main_runner_start_new c1_exp "G_x" [("S_0001", [])] 2 false).error
      = some (.invalidSweepStatus "PARTIAL_COMPLETION") ∧
    (main_runner_start_new c1_exp "G_x" [("S_0001", [])] 2 false).execCount = 2 ∧
    ((main_runner_start_new c1_exp "G_x" [("S_0001", [])] 2 false).fs.sweeps.map
      (fun sw => sw.2.map (fun rm => rm.status))) = [["CRASHED", "COMPLETED"]] ∧
    ((main_runner_start_new c1_exp "G_x" [("S_0001", [])] 2 false).fs.sweeps.map
      (fun sw => sw.1.status)) = ["RUNNING"] ∧
    (main_runner_start_new c1_exp "G_x" [("S_0001", [])] 2 false).events
      = [{ type := "CREATE_GROUP", group_id := "G_x" },
         { type := "SUBMIT_SWEEP", group_id := "G_x", sweep_id := some "S_0001",
           num_reps := some 2 },
         { type := "UPDATE_STATUS", group_id := "G_x", status := some "RUNNING" }] ∧
    ((main_runner_start_new c1_exp "G_x" [("S_0001", [])] 2 false).events.filter
      (fun e => e.type == "UPDATE_STATUS" && e.sweep_id == some "S_0001")) = [] := by
  decide

/-! ### Claim C2 -/

theorem resume_reps_all_completed (exp : Exp) (gid sid : String)
    (ids : List String) :
    ∀ (posted : Bool) (evs : List Event) (cnt : Nat) (reps : List RepManifest),
      (∀ rm ∈ reps, rm.status = "COMPLETED") →
      resume_reps exp gid sid ids posted evs cnt reps
        = ⟨reps, posted, evs, cnt, none⟩ := by
  induction ids with
  | nil => intro posted evs cnt reps _; rfl
  | cons rid rest ih =>
    intro posted evs cnt reps h
    simp only [resume_reps]
    cases hfind : reps.find? (fun rm => rm.rep_id == rid) with
    | none => exact ih posted evs cnt reps h
    | some rm =>
      have hst : rm.status = "COMPLETED" := h rm (List.mem_of_find?_eq_some hfind)
      have hterm : is_terminal rm.status = true := by rw [hst]; rfl
      simp only [hterm, if_true]
      exact ih posted evs cnt reps h

theorem collect_entries_dirs_status (reps : List RepManifest)
    (h : ∀ rm ∈ reps, rm.status = "COMPLETED") (ids : List String) :
    ∀ e ∈ collect_entries_dirs reps ids, e.status = "COMPLETED" := by
  induction ids with
  | nil => intro e he; simp [collect_entries_dirs] at he
  | cons rid rest ih =>
    intro e he
    simp only [collect_entries_dirs] at he
    cases hfind : reps.find? (fun rm => rm.rep_id == rid) with
    | none =>
      rw [hfind] at he
      exact ih e he
    | some rm =>
      rw [hfind] at he
      rcases List.mem_cons.mp he with h1 | h1
      · subst h1
        exact h rm (List.mem_of_find?_eq_some hfind)
      · exact ih e h1

theorem summarize_sweep_all_completed {entries : List RepEntry}
    (h : ∀ e ∈ entries, e.status = "COMPLETED") :
    summarize_sweep_status entries = "COMPLETED" := by
  have hall : (entries.map (·.status)).all (· == "COMPLETED") = true := by
    rw [List.all_eq_true]
    intro s hs
    rcases List.mem_map.mp hs with ⟨e, he, rfl⟩
    simp [h e he]
  simp only [summarize_sweep_status, hall, if_true]

theorem summarize_group_all_completed {ms : List SweepManifest}
    (h : ∀ m ∈ ms, m.status = "COMPLETED") :
    summarize_group_status ms = "COMPLETED" := by
  have hall : (ms.map (·.status)).all (· == "COMPLETED") = true := by
    rw [List.all_eq_true]
    intro s hs
    rcases List.mem_map.mp hs with ⟨m, hm, rfl⟩
    simp [h m hm]
  simp only [summarize_group_status, hall, if_true]

theorem resume_sweep_all_completed (exp : Exp) (gid : String)
    (sw : SweepManifest × List RepManifest) (posted : Bool) (evs : List Event)
    (cnt : Nat) (h : ∀ rm ∈ sw.2, rm.status = "COMPLETED") :
    resume_sweep exp gid sw posted evs cnt
      = ⟨({sw.1 with status := "COMPLETED"}, sw.2), posted,
         evs ++ [sweepEvt gid sw.1.sweep_id "COMPLETED"], cnt, none⟩ := by
  have hsum : summarize_sweep_status
      (collect_entries_dirs sw.2 (sw.2.map (·.rep_id))) = "COMPLETED" :=
    summarize_sweep_all_completed (collect_entries_dirs_status sw.2 h _)
  simp only [resume_sweep,
    resume_reps_all_completed exp gid sw.1.sweep_id (sw.2.map (·.rep_id))
      posted evs cnt sw.2 h,
    hsum]
  rfl

theorem resume_sweeps_all_completed (exp : Exp) (gid : String)
    (sweeps : List (SweepManifest × List RepManifest)) :
    ∀ (posted : Bool) (evs : List Event) (cnt : Nat),
      (∀ sw ∈ sweeps, ∀ rm ∈ sw.2, rm.status = "COMPLETED") →
      resume_sweeps exp gid sweeps posted evs cnt
        = ⟨sweeps.map (fun sw => ({sw.1 with status := "COMPLETED"}, sw.2)),
           posted,
           evs ++ sweeps.map (fun sw => sweepEvt gid sw.1.sweep_id "COMPLETED"),
           cnt, none⟩ := by
  induction sweeps with
  | nil =>
    intro posted evs cnt _
    simp [resume_sweeps]
  | cons sw rest ih =>
    intro posted evs cnt h
    simp only [resume_sweeps,
      resume_sweep_all_completed exp gid sw posted evs cnt
        (h sw (List.mem_cons_self sw rest)),
      ih posted (evs ++ [sweepEvt gid sw.1.sweep_id "COMPLETED"]) cnt
        (fun sw2 hsw2 => h sw2 (List.mem_cons_of_mem sw hsw2))]
    simp [List.append_assoc]

/-- C2 (amended): resuming a group all of whose reps are `COMPLETED`
executes zero reps — but, contrary to the claim's "zero new events", it
appends exactly one sweep-scoped `UPDATE_STATUS(COMPLETED)` event per
sweep plus one final group-scoped `UPDATE_STATUS(COMPLETED)` event. -/
theorem c2_resume_completed_amended (exp : Exp) (gid : String) (fs : FS)
    (h : ∀ sw ∈ fs.sweeps, ∀ rm ∈ sw.2, rm.status = "COMPLETED") :
    (main_runner_start_resume exp gid fs).error = none ∧
    (main_runner_start_resume exp gid fs).execCount = 0 ∧
    (main_runner_start_resume exp gid fs).events
      = fs.sweeps.map (fun sw => sweepEvt gid sw.1.sweep_id "COMPLETED")
          ++ [groupEvt gid "COMPLETED"] ∧
    (main_runner_start_resume exp gid fs).events.length
      = fs.sweeps.length + 1 := by
  have hgrp : summarize_group_status
      ((fs.sweeps.map (fun sw => ({sw.1 with status := "COMPLETED"}, sw.2))).map
        (·.1)) = "COMPLETED" := by
    apply summarize_group_all_completed
    intro m hm
    rw [List.map_map] at hm
    rcases List.mem_map.mp hm with ⟨sw, _, rfl⟩
    rfl
  have hupd : update_group_status fs.group "COMPLETED"
      = .ok {fs.group with status := "COMPLETED"} := rfl
  have happ : ∀ evs : List Event,
      append_event evs (groupEvt gid "COMPLETED")
        = .ok (evs ++ [groupEvt gid "COMPLETED"]) := fun _ => rfl
  simp only [main_runner_start_resume,
    resume_sweeps_all_completed exp gid fs.sweeps false [] 0 h, hgrp, hupd, happ]
  refine ⟨trivial, trivial, ?_, ?_⟩
  · simp
  · simp

/-- An experiment function for the C2 counterexample; it is never
invoked. -/
def c2_exp : Exp := fun _ _ => .raised

/-- A fully completed one-sweep, one-rep group. -/
def c2_fs : FS :=
  ⟨{ group_id := "G_x", status := "PENDING" },
   [({ sweep_id := "S_0001", parameter_combination := [], num_reps := 1,
       reps := [⟨"R_001", "COMPLETED", 1⟩], status := "COMPLETED" },
     [{ rep_id := "R_001", sweep_id := "S_0001", group_id := "G_x",
        version := 1, status := "COMPLETED", artifacts := [],
        parameters := [] }])]⟩

/-- C2 counterexample: resuming a concrete fully completed group (every
rep terminal) executes zero reps but appends two new events — one
sweep-scoped and one group-scoped `UPDATE_STATUS` — not zero as the
claim states. -/
theorem c2_resume_completed_counterexample :
    (c2_fs.sweeps.all (fun sw => sw.2.all (fun rm => is_terminal rm.status)))
      = true ∧
    (main_runner_start_resume c2_exp "G_x" c2_fs).execCount = 0 ∧
    (main_runner_start_resume c2_exp "G_x" c2_fs).events.length = 2 ∧
    ¬ (main_runner_start_resume c2_exp "G_x" c2_fs).events.length = 0 := by
  decide

theorem c2_resume_completed_amended_witness :
    (∀ sw ∈ c2_fs.sweeps, ∀ rm ∈ sw.2, rm.status = "COMPLETED") ∧
    (main_runner_start_resume c2_exp "G_x" c2_fs).error = none ∧
    (main_runner_start_resume c2_exp "G_x" c2_fs).execCount = 0 ∧
    (main_runner_start_resume c2_exp "G_x" c2_fs).events.length
      = c2_fs.sweeps.length + 1 := by
  have h : ∀ sw ∈ c2_fs.sweeps, ∀ rm ∈ sw.2, rm.status = "COMPLETED" := by
    decide
  have hc := c2_resume_completed_amended c2_exp "G_x" c2_fs h
  exact ⟨h, hc.1, hc.2.1, hc.2.2.2⟩

/-! ### Claim C3 -/

theorem rep_id_of_find? {reps : List RepManifest} {rid : String} {rm : RepManifest}
    (h : reps.find? (fun x => x.rep_id == rid) = some rm) : rm.rep_id = rid := by
  have := List.find?_some h
  exact beq_iff_eq.mp this

theorem find?_store_rep_other (reps : List RepManifest) (rid rid' : String)
    (rm2 : RepManifest) (hid : rm2.rep_id = rid) (hne : rid' ≠ rid) :
    (store_rep reps rid rm2).find? (fun rm => rm.rep_id == rid')
      = reps.find? (fun rm => rm.rep_id == rid') := by
  induction reps with
  | nil => rfl
  | cons rm rest ih =>
    cases hb : rm.rep_id == rid with
    | true =>
      have h1 : (rm2.rep_id == rid') = false := by
        rw [beq_eq_false_iff_ne, hid]
        exact fun he => hne he.symm
      have h2 : (rm.rep_id == rid') = false := by
        rw [beq_eq_false_iff_ne, beq_iff_eq.mp hb]
        exact fun he => hne he.symm
      have hstep : store_rep (rm :: rest) rid rm2 = rm2 :: store_rep rest rid rm2 := by
        show (if (rm.rep_id == rid) = true then rm2 else rm) :: store_rep rest rid rm2 = _
        rw [if_pos hb]
      rw [hstep, List.find?_cons_of_neg _ (by simp [h1]),
        List.find?_cons_of_neg _ (by simp [h2])]
      exact ih
    | false =>
      have hstep : store_rep (rm :: rest) rid rm2 = rm :: store_rep rest rid rm2 := by
        show (if (rm.rep_id == rid) = true then rm2 else rm) :: store_rep rest rid rm2 = _
        rw [if_neg (by simp [hb])]
      rw [hstep]
      cases hb' : rm.rep_id == rid' with
      | true =>
        rw [List.find?_cons_of_pos _ (by simp [hb']),
          List.find?_cons_of_pos _ (by simp [hb'])]
      | false =>
        rw [List.find?_cons_of_neg _ (by simp [hb']),
          List.find?_cons_of_neg _ (by simp [hb'])]
        exact ih

theorem find?_store_rep_same (reps : List RepManifest) (rid : String)
    (rm0 rm2 : RepManifest)
    (hfind : reps.find? (fun rm => rm.rep_id == rid) = some rm0)
    (hid : rm2.rep_id = rid) :
    (store_rep reps rid rm2).find? (fun rm => rm.rep_id == rid) = some rm2 := by
  induction reps with
  | nil => cases hfind
  | cons rm rest ih =>
    cases hb : rm.rep_id == rid with
    | true =>
      have h1 : (rm2.rep_id == rid) = true := by rw [hid]; exact beq_self_eq_true rid
      have hstep : store_rep (rm :: rest) rid rm2 = rm2 :: store_rep rest rid rm2 := by
        show (if (rm.rep_id == rid) = true then rm2 else rm) :: store_rep rest rid rm2 = _
        rw [if_pos hb]
      rw [hstep, List.find?_cons_of_pos _ (by simp [h1])]
    | false =>
      have hstep : store_rep (rm :: rest) rid rm2 = rm :: store_rep rest rid rm2 := by
        show (if (rm.rep_id == rid) = true then rm2 else rm) :: store_rep rest rid rm2 = _
        rw [if_neg (by simp [hb])]
      rw [List.find?_cons_of_neg _ (by simp [hb])] at hfind
      rw [hstep, List.find?_cons_of_neg _ (by simp [hb])]
      exact ih hfind

theorem run_single_rep_success {v : Py} {reps : List RepManifest} {rid : String}
    {rm0 : RepManifest}
    (hfind : reps.find? (fun rm => rm.rep_id == rid) = some rm0) :
    run_single_rep (.success v) reps rid
      = .ok (store_rep reps rid
          { rm0 with status := "COMPLETED", artifacts := to_artifacts v }) := by
  simp only [run_single_rep, load_rep, hfind]
  rfl

/-- One step of `exec_reps` under a successful experiment. -/
theorem exec_reps_cons_step (exp : Exp) (gid sid : String) (r : Nat)
    (rest : List Nat) (posted : Bool) (evs : List Event) (cnt : Nat)
    (reps : List RepManifest) {v : Py} {rm0 : RepManifest}
    (hv : exp sid (format_rep_id (r + 1)) = .success v)
    (hfind : reps.find? (fun rm => rm.rep_id == format_rep_id (r + 1)) = some rm0) :
    exec_reps exp gid sid (r :: rest) posted evs cnt reps
      = exec_reps exp gid sid rest true
          (if posted then evs else evs ++ [groupEvt gid "RUNNING"]) (cnt + 1)
          (store_rep reps (format_rep_id (r + 1))
            { rm0 with status := "COMPLETED", artifacts := to_artifacts v }) := by
  cases posted with
  | true =>
    simp only [exec_reps, Bool.not_true, Bool.false_eq_true, if_false, hv,
      run_single_rep_success hfind]
    simp
  | false =>
    have happ : append_event evs (groupEvt gid "RUNNING")
        = .ok (evs ++ [groupEvt gid "RUNNING"]) := rfl
    simp only [exec_reps, Bool.not_false, happ, hv,
      run_single_rep_success hfind, Bool.false_eq_true, if_false]
    simp

theorem exec_reps_success (exp : Exp) (gid sid : String)
    (hexp : ∀ rid, ∃ v, exp sid rid = .success v) (idxs : List Nat) :
    ∀ (posted : Bool) (evs : List Event) (cnt : Nat) (reps : List RepManifest),
      (∀ r ∈ idxs, ∃ rm,
        reps.find? (fun rm => rm.rep_id == format_rep_id (r + 1)) = some rm) →
      idxs.Nodup →
      (exec_reps exp gid sid idxs posted evs cnt reps).err = none ∧
      (exec_reps exp gid sid idxs posted evs cnt reps).posted
        = (posted || !idxs.isEmpty) ∧
      (exec_reps exp gid sid idxs posted evs cnt reps).events
        = evs ++ (if posted || idxs.isEmpty then [] else [groupEvt gid "RUNNING"]) ∧
      (exec_reps exp gid sid idxs posted evs cnt reps).execCount
        = cnt + idxs.length ∧
      (∀ r ∈ idxs, ∃ rm,
        (exec_reps exp gid sid idxs posted evs cnt reps).reps.find?
            (fun x => x.rep_id == format_rep_id (r + 1)) = some rm ∧
          rm.status = "COMPLETED") ∧
      (∀ rid, (∀ r ∈ idxs, rid ≠ format_rep_id (r + 1)) →
        (exec_reps exp gid sid idxs posted evs cnt reps).reps.find?
            (fun x => x.rep_id == rid)
          = reps.find? (fun x => x.rep_id == rid)) := by
  induction idxs with
  | nil =>
    intro posted evs cnt reps _ _
    refine ⟨rfl, by simp [exec_reps], by simp [exec_reps], rfl, ?_, ?_⟩
    · intro r hr; cases hr
    · intro rid _; rfl
  | cons r rest ih =>
    intro posted evs cnt reps hfind hnd
    obtain ⟨rm0, hrm0⟩ := hfind r (List.mem_cons_self r rest)
    obtain ⟨v, hv⟩ := hexp (format_rep_id (r + 1))
    have hrid0 : rm0.rep_id = format_rep_id (r + 1) := rep_id_of_find? hrm0
    have hstep := exec_reps_cons_step exp gid sid r rest posted evs cnt reps hv hrm0
    have hrnotin : r ∉ rest := (List.nodup_cons.mp hnd).1
    have hndr : rest.Nodup := (List.nodup_cons.mp hnd).2
    have hkeyne : ∀ r2 ∈ rest, format_rep_id (r2 + 1) ≠ format_rep_id (r + 1) := by
      intro r2 hr2 he
      have h12 : r2 = r := by
        have := format_rep_id_inj he
        omega
      subst h12
      exact hrnotin hr2
    have hfind2 : ∀ r2 ∈ rest, ∃ rm,
        (store_rep reps (format_rep_id (r + 1))
            { rm0 with status := "COMPLETED", artifacts := to_artifacts v }).find?
          (fun rm => rm.rep_id == format_rep_id (r2 + 1)) = some rm := by
      intro r2 hr2
      rw [find?_store_rep_other reps (format_rep_id (r + 1)) (format_rep_id (r2 + 1))
        { rm0 with status := "COMPLETED", artifacts := to_artifacts v }
        hrid0 (hkeyne r2 hr2)]
      exact hfind r2 (List.mem_cons_of_mem r hr2)
    obtain ⟨ih1, ih2, ih3, ih4, ih5, ih6⟩ := ih true
      (if posted then evs else evs ++ [groupEvt gid "RUNNING"]) (cnt + 1)
      (store_rep reps (format_rep_id (r + 1))
        { rm0 with status := "COMPLETED", artifacts := to_artifacts v })
      hfind2 hndr
    rw [hstep]
    refine ⟨ih1, ?_, ?_, ?_, ?_, ?_⟩
    · rw [ih2]
      simp
    · rw [ih3]
      cases posted <;> simp
    · rw [ih4]
      simp only [List.length_cons]
      omega
    · intro r2 hr2
      rcases List.mem_cons.mp hr2 with h1 | h1
      · subst h1
        refine ⟨{ rm0 with status := "COMPLETED", artifacts := to_artifacts v },
          ?_, rfl⟩
        rw [ih6 (format_rep_id (r2 + 1))
          (fun r3 hr3 => (hkeyne r3 hr3).symm)]
        exact find?_store_rep_same reps _ rm0 _ hrm0 hrid0
      · exact ih5 r2 h1
    · intro rid hrid
      rw [ih6 rid (fun r3 hr3 => hrid r3 (List.mem_cons_of_mem r hr3))]
      exact find?_store_rep_other reps _ rid _ hrid0
        (hrid r (List.mem_cons_self r rest))

theorem find?_staged_reps (gid sid : String) (ov : PyDict) (n : Nat) :
    ∀ r ∈ List.range n, ∃ rm,
      (staged_reps gid sid ov n).find?
        (fun rm => rm.rep_id == format_rep_id (r + 1)) = some rm := by
  intro r hr
  have hmem : staged_rep_manifest gid sid (format_rep_id (r + 1)) ov
      ∈ staged_reps gid sid ov n := List.mem_map_of_mem _ hr
  have hsome : ((staged_reps gid sid ov n).find?
      (fun rm => rm.rep_id == format_rep_id (r + 1))).isSome := by
    rw [List.find?_isSome]
    exact ⟨_, hmem, by simp [staged_rep_manifest]⟩
  cases hfind : (staged_reps gid sid ov n).find?
      (fun rm => rm.rep_id == format_rep_id (r + 1)) with
  | none => rw [hfind] at hsome; cases hsome
  | some rm => exact ⟨rm, rfl⟩

theorem collect_entries_range_completed (reps : List RepManifest)
    (idxs : List Nat)
    (h : ∀ r ∈ idxs, ∃ rm,
      reps.find? (fun x => x.rep_id == format_rep_id (r + 1)) = some rm ∧
        rm.status = "COMPLETED") :
    ∃ entries, collect_entries_range reps idxs = .ok entries ∧
      ∀ e ∈ entries, e.status = "COMPLETED" := by
  induction idxs with
  | nil => exact ⟨[], rfl, by intro e he; cases he⟩
  | cons r rest ih =>
    obtain ⟨rm, hfind, hst⟩ := h r (List.mem_cons_self r rest)
    obtain ⟨entries, heq, hall⟩ := ih (fun r2 hr2 => h r2 (List.mem_cons_of_mem r hr2))
    refine ⟨⟨rm.rep_id, rm.status⟩ :: entries, ?_, ?_⟩
    · simp only [collect_entries_range, load_rep, hfind, heq]
    · intro e he
      rcases List.mem_cons.mp he with h1 | h1
      · subst h1; exact hst
      · exact hall e h1

theorem exec_sweep_success (exp : Exp) (gid sid : String) (ov : PyDict)
    (n : Nat) (posted : Bool) (evs : List Event) (cnt : Nat)
    (hexp : ∀ rid, ∃ v, exp sid rid = .success v) (hn : 1 ≤ n) :
    (exec_sweep exp gid n (staged_sweep_manifest sid ov n, staged_reps gid sid ov n)
        posted evs cnt).err = none ∧
    (exec_sweep exp gid n (staged_sweep_manifest sid ov n, staged_reps gid sid ov n)
        posted evs cnt).sweep.1.sweep_id = sid ∧
    (exec_sweep exp gid n (staged_sweep_manifest sid ov n, staged_reps gid sid ov n)
        posted evs cnt).sweep.1.status = "COMPLETED" ∧
    (exec_sweep exp gid n (staged_sweep_manifest sid ov n, staged_reps gid sid ov n)
        posted evs cnt).posted = true ∧
    (exec_sweep exp gid n (staged_sweep_manifest sid ov n, staged_reps gid sid ov n)
        posted evs cnt).events
      = evs ++ (if posted then [] else [groupEvt gid "RUNNING"])
          ++ [sweepEvt gid sid "COMPLETED"] ∧
    (exec_sweep exp gid n (staged_sweep_manifest sid ov n, staged_reps gid sid ov n)
        posted evs cnt).execCount = cnt + n := by
  have hempty : (List.range n).isEmpty = false := by
    cases n with
    | zero => omega
    | succ m => simp [List.range_succ]
  obtain ⟨h1, h2, h3, h4, h5, h6⟩ := exec_reps_success exp gid sid hexp
    (List.range n) posted evs cnt (staged_reps gid sid ov n)
    (find?_staged_reps gid sid ov n) (List.nodup_range n)
  obtain ⟨entries, hent, hallent⟩ := collect_entries_range_completed _ _ h5
  have hsum : summarize_sweep_status entries = "COMPLETED" :=
    summarize_sweep_all_completed hallent
  have hok1 : ∀ sm : SweepManifest,
      update_sweep_status sm "RUNNING" = .ok { sm with status := "RUNNING" } :=
    fun _ => rfl
  have hok2 : ∀ sm : SweepManifest,
      update_sweep_status sm "COMPLETED" = .ok { sm with status := "COMPLETED" } :=
    fun _ => rfl
  have happ : ∀ evs2 : List Event,
      append_event evs2 (sweepEvt gid sid "COMPLETED")
        = .ok (evs2 ++ [sweepEvt gid sid "COMPLETED"]) := fun _ => rfl
  have hsid : (staged_sweep_manifest sid ov n).sweep_id = sid := rfl
  simp only [exec_sweep, hok1, hsid, h1, hent, hsum, hok2, happ]
  refine ⟨trivial, trivial, trivial, ?_, ?_, ?_⟩
  · show (exec_reps exp gid sid (List.range n) posted evs cnt
      (staged_reps gid sid ov n)).posted = true
    rw [h2, hempty]
    simp
  · show (exec_reps exp gid sid (List.range n) posted evs cnt
        (staged_reps gid sid ov n)).events ++ [sweepEvt gid sid "COMPLETED"] = _
    rw [h3, hempty]
    cases posted <;> simp
  · show (exec_reps exp gid sid (List.range n) posted evs cnt
      (staged_reps gid sid ov n)).execCount = cnt + n
    rw [h4]
    simp

theorem exec_sweeps_success (exp : Exp) (gid : String) (n : Nat)
    (hexp : ∀ sid rid, ∃ v, exp sid rid = .success v) (hn : 1 ≤ n)
    (elements : List (String × PyDict)) :
    ∀ (posted : Bool) (evs : List Event) (cnt : Nat),
      (exec_sweeps exp gid n (staged_sweeps gid elements n) posted evs cnt).err
        = none ∧
      (exec_sweeps exp gid n (staged_sweeps gid elements n) posted evs
          cnt).sweeps.map (fun sw => (sw.1.sweep_id, sw.1.status))
        = elements.map (fun el => (el.1, "COMPLETED")) ∧
      (exec_sweeps exp gid n (staged_sweeps gid elements n) posted evs
          cnt).posted = (posted || !elements.isEmpty) ∧
      (exec_sweeps exp gid n (staged_sweeps gid elements n) posted evs
          cnt).events
        = evs ++ (if posted || elements.isEmpty then []
                  else [groupEvt gid "RUNNING"])
            ++ elements.map (fun el => sweepEvt gid el.1 "COMPLETED") ∧
      (exec_sweeps exp gid n (staged_sweeps gid elements n) posted evs
          cnt).execCount = cnt + elements.length * n := by
  induction elements with
  | nil =>
    intro posted evs cnt
    refine ⟨rfl, rfl, by simp [staged_sweeps, exec_sweeps], ?_, by simp [staged_sweeps, exec_sweeps]⟩
    simp [staged_sweeps, exec_sweeps]
  | cons el rest ih =>
    intro posted evs cnt
    obtain ⟨e1, e2, e3, e4, e5, e6⟩ := exec_sweep_success exp gid el.1 el.2 n
      posted evs cnt (hexp el.1) hn
    obtain ⟨i1, i2, i3, i4, i5⟩ := ih true
      (evs ++ (if posted then [] else [groupEvt gid "RUNNING"])
        ++ [sweepEvt gid el.1 "COMPLETED"]) (cnt + n)
    have hunfold : staged_sweeps gid (el :: rest) n
        = (staged_sweep_manifest el.1 el.2 n, staged_reps gid el.1 el.2 n)
            :: staged_sweeps gid rest n := rfl
    rw [hunfold]
    simp only [exec_sweeps, e1, ← e5, ← e4, ← e6]
    simp only [e5, e4, e6]
    refine ⟨i1, ?_, ?_, ?_, ?_⟩
    · simp only [List.map_cons, i2, e2, e3]
    · rw [i3]
      simp
    · rw [i4]
      cases posted <;> simp [List.append_assoc]
    · rw [i5]
      simp only [List.length_cons]
      rw [Nat.succ_mul]
      omega

/-- C3: a non-dry-run start of a new group whose experiment always
returns normally ends with the group manifest `COMPLETED` and every sweep
manifest `COMPLETED`; the events appended are `CREATE_GROUP`, one
`SUBMIT_SWEEP` per sweep, then exactly one group-scoped
`UPDATE_STATUS(RUNNING)` when the first rep starts (not at group
creation, not per sweep), one sweep-scoped `UPDATE_STATUS` per sweep, and
the final group-scoped `UPDATE_STATUS(COMPLETED)`. -/
theorem c3_full_run_success (exp : Exp) (gid : String)
    (elements : List (String × PyDict)) (n : Nat)
    (hexp : ∀ sid rid, ∃ v, exp sid rid = .success v)
    (hne : elements ≠ [])
    (hnd : (elements.map (·.1)).Nodup)
    (hn : 1 ≤ n) :
    (main_runner_start_new exp gid elements n false).error = none ∧
    (main_runner_start_new exp gid elements n false).fs.group.status
      = "COMPLETED" ∧
    (∀ sw ∈ (main_runner_start_new exp gid elements n false).fs.sweeps,
      sw.1.status = "COMPLETED") ∧
    (main_runner_start_new exp gid elements n false).events
      = ({ type := "CREATE_GROUP", group_id := gid } ::
          elements.map (fun el =>
            { type := "SUBMIT_SWEEP", group_id := gid, sweep_id := some el.1,
              num_reps := some (max n 1) }))
        ++ [groupEvt gid "RUNNING"]
        ++ elements.map (fun el => sweepEvt gid el.1 "COMPLETED")
        ++ [groupEvt gid "COMPLETED"] ∧
    (main_runner_start_new exp gid elements n false).events.countP
      (fun e => e.type == "UPDATE_STATUS" && e.sweep_id == none
        && e.status == some "RUNNING") = 1 ∧
    (∀ el0 ∈ elements,
      (main_runner_start_new exp gid elements n false).events.countP
        (fun e => e.type == "UPDATE_STATUS" && e.sweep_id == some el0.1) = 1) := by
  have hempty : elements.isEmpty = false := by
    cases elements with
    | nil => exact absurd rfl hne
    | cons a l => rfl
  obtain ⟨s1, s2, s3, s4, s5⟩ := exec_sweeps_success exp gid n hexp hn elements
    false
    ({ type := "CREATE_GROUP", group_id := gid } ::
      elements.map (fun el =>
        { type := "SUBMIT_SWEEP", group_id := gid, sweep_id := some el.1,
          num_reps := some (max n 1) }))
    0
  have hstat : ∀ sw ∈ (exec_sweeps exp gid n (staged_sweeps gid elements n)
      false
      ({ type := "CREATE_GROUP", group_id := gid } ::
        elements.map (fun el =>
          { type := "SUBMIT_SWEEP", group_id := gid, sweep_id := some el.1,
            num_reps := some (max n 1) }))
      0).sweeps, sw.1.status = "COMPLETED" := by
    intro sw hsw
    have hmem : (sw.1.sweep_id, sw.1.status)
        ∈ elements.map (fun el => (el.1, "COMPLETED")) := by
      rw [← s2]
      exact List.mem_map_of_mem _ hsw
    rcases List.mem_map.mp hmem with ⟨el, _, heq⟩
    exact (congrArg Prod.snd heq).symm
  have hgrp : summarize_group_status
      ((exec_sweeps exp gid n (staged_sweeps gid elements n) false
        ({ type := "CREATE_GROUP", group_id := gid } ::
          elements.map (fun el =>
            { type := "SUBMIT_SWEEP", group_id := gid, sweep_id := some el.1,
              num_reps := some (max n 1) }))
        0).sweeps.map (·.1)) = "COMPLETED" := by
    apply summarize_group_all_completed
    intro m hm
    rcases List.mem_map.mp hm with ⟨sw, hsw, rfl⟩
    exact hstat sw hsw
  have hupdg : ∀ gm : GroupManifest, update_group_status gm "COMPLETED"
      = .ok { gm with status := "COMPLETED" } := fun _ => rfl
  have happg : ∀ evs : List Event,
      append_event evs (groupEvt gid "COMPLETED")
        = .ok (evs ++ [groupEvt gid "COMPLETED"]) := fun _ => rfl
  have hifel : (if elements.isEmpty = true
      then [("S_0001", ([] : PyDict))] else elements) = elements := by
    rw [hempty]
    simp
  simp only [main_runner_start_new, stage_new_group, hifel, Bool.false_eq_true,
    if_false, s1, hgrp, hupdg, happg]
  refine ⟨trivial, trivial, hstat, ?_, ?_, ?_⟩
  · show (exec_sweeps exp gid n (staged_sweeps gid elements n) false _ 0).events
        ++ [groupEvt gid "COMPLETED"] = _
    rw [s4, hempty]
    simp [List.append_assoc]
  · show List.countP _ ((exec_sweeps exp gid n (staged_sweeps gid elements n)
      false _ 0).events ++ [groupEvt gid "COMPLETED"]) = 1
    rw [s4, hempty]
    have hsubmits : List.countP
        (fun e => e.type == "UPDATE_STATUS" && e.sweep_id == none
          && e.status == some "RUNNING")
        (elements.map (fun el =>
          ({ type := "SUBMIT_SWEEP", group_id := gid, sweep_id := some el.1,
             num_reps := some (max n 1) } : Event))) = 0 := by
      rw [List.countP_eq_zero]
      intro e he
      rcases List.mem_map.mp he with ⟨el, _, rfl⟩
      simp
    have hsweeps : List.countP
        (fun e => e.type == "UPDATE_STATUS" && e.sweep_id == none
          && e.status == some "RUNNING")
        (elements.map (fun el => sweepEvt gid el.1 "COMPLETED")) = 0 := by
      rw [List.countP_eq_zero]
      intro e he
      rcases List.mem_map.mp he with ⟨el, _, rfl⟩
      simp [sweepEvt]
    simp [List.countP_append, List.countP_cons, hsubmits, hsweeps, groupEvt]
  · intro el0 hel0
    show List.countP _ ((exec_sweeps exp gid n (staged_sweeps gid elements n)
      false _ 0).events ++ [groupEvt gid "COMPLETED"]) = 1
    rw [s4, hempty]
    have hsubmits : List.countP
        (fun e => e.type == "UPDATE_STATUS" && e.sweep_id == some el0.1)
        (elements.map (fun el =>
          ({ type := "SUBMIT_SWEEP", group_id := gid, sweep_id := some el.1,
             num_reps := some (max n 1) } : Event))) = 0 := by
      rw [List.countP_eq_zero]
      intro e he
      rcases List.mem_map.mp he with ⟨el, _, rfl⟩
      simp
    have hsweeps : List.countP
        (fun e => e.type == "UPDATE_STATUS" && e.sweep_id == some el0.1)
        (elements.map (fun el => sweepEvt gid el.1 "COMPLETED")) = 1 := by
      rw [List.countP_map]
      have hcomp : ((fun e : Event => e.type == "UPDATE_STATUS"
            && e.sweep_id == some el0.1)
          ∘ (fun el : String × PyDict => sweepEvt gid el.1 "COMPLETED"))
          = ((· == el0.1) ∘ (fun el : String × PyDict => el.1)) := by
        funext el
        rfl
      rw [hcomp, ← List.countP_map, ← List.count_eq_countP]
      exact List.count_eq_one_of_mem hnd (List.mem_map_of_mem _ hel0)
    simp [List.countP_append, List.countP_cons, hsubmits, hsweeps, groupEvt]

theorem c3_full_run_success_witness :
    ((([("S_0001", []), ("S_0002", [])] : List (String × PyDict)).map
      (·.1)).Nodup) ∧
    (main_runner_start_new (fun _ _ => .success (.pyDict [])) "G_w"
      [("S_0001", []), ("S_0002", [])] 1 false).error = none ∧
    (main_runner_start_new (fun _ _ => .success (.pyDict [])) "G_w"
      [("S_0001", []), ("S_0002", [])] 1 false).fs.group.status
      = "COMPLETED" ∧
    (main_runner_start_new (fun _ _ => .success (.pyDict [])) "G_w"
      [("S_0001", []), ("S_0002", [])] 1 false).events.countP
      (fun e => e.type == "UPDATE_STATUS" && e.sweep_id == none
        && e.status == some "RUNNING") = 1 := by
  have h := c3_full_run_success (fun _ _ => .success (.pyDict [])) "G_w"
    [("S_0001", []), ("S_0002", [])] 1
    (fun _ _ => ⟨.pyDict [], rfl⟩) (List.cons_ne_nil _ _) (by decide) (by decide)
  exact ⟨by decide, h.1, h.2.1, h.2.2.2.2.1⟩

/-- C10: aggregation over an empty child list takes the vacuously true
all-`COMPLETED` branch, for both `summarize_sweep_status` (zero rep
entries) and `summarize_group_status` (zero sweep manifests): the result
is `COMPLETED`, not `PENDING` and not an error. -/
theorem c10_empty_agg_completed :
    summarize_sweep_status [] = "COMPLETED" ∧
    summarize_group_status [] = "COMPLETED" ∧
    summarize_sweep_status [] ≠ "PENDING" ∧
    summarize_group_status [] ≠ "PENDING" := by
  refine ⟨rfl, rfl, by decide, by decide⟩

end Rem
